import Mathlib

set_option maxHeartbeats 1000000

/- Verification development for the share access-control and download-accounting
   engine of a file-sharing web application.  The route handlers of
   server/routes.ts and the storage layer (MemStorage and DatabaseStorage) are
   embedded as pure Lean functions over an explicit store; the JavaScript
   truthiness of the nullable fields is made explicit.  Timestamps are epoch
   integers, database ids are natural numbers. -/

/-- JavaScript truthiness of a nullable string: null, undefined and the empty
string are falsy. -/
def strTruthy : Option String → Bool
  | none => false
  | some s => decide (¬ s = "")

/-- The guard `x.expiresAt && new Date() > x.expiresAt` of the route handlers.
A Date object is always truthy, so only a null expiry is falsy; the comparison
is on epoch timestamps. -/
def expiredChk (expiresAt : Option Int) (now : Int) : Bool :=
  match expiresAt with
  | none => false
  | some t => decide (now > t)

/-- The guard `x.downloadLimit && x.downloadCount >= x.downloadLimit` of the
route handlers.  A null limit is falsy, and so is a limit of 0, which therefore
disables the check. -/
def limitReachedChk : Option Int → Int → Bool
  | none, _ => false
  | some l, count => decide (¬ l = 0) && decide (count ≥ l)

/-- Modelled from the spec: the digest body of a bcrypt hash (section 4.1,
Credential Verifier; the bcrypt library itself is an external collaborator and
is not part of the repository sources).  The real digest is a slow one-way
function of cost, salt and plaintext; one-wayness is not representable by an
executable model, so the model keeps exactly the property sections 4.1 and 8
rely on: for a fixed stored salt the digest is injective in the plaintext. -/
def bcryptBody (p : String) : List Char :=
  p.data

/-- Modelled from the spec: bcrypt.hashSync with a library-generated salt
(salts are unique per call and never caller-supplied, section 4.1).  The cost
factor is rendered as two characters and the salt as four characters inside
the standard dollar-sign-delimited modular-crypt format. -/
def bcryptHashSync (c1 c2 s1 s2 s3 s4 : Char) (p : String) : String :=
  ⟨'$' :: '2' :: 'b' :: '$' :: c1 :: c2 :: '$' :: s1 :: s2 :: s3 :: s4 :: bcryptBody p⟩

/-- Modelled from the spec: bcrypt.compareSync, which throws (modelled as
`Except.error`) when the candidate password is missing (undefined) or when the
stored hash does not parse as a bcrypt hash, and otherwise compares the
recomputed digest against the stored one (section 4.1 failure mode). -/
def bcryptCompareSyncE (p : Option String) (h : String) : Except String Bool :=
  match p with
  | none => Except.error ("data and hash arguments required")
  | some pw =>
    match h.data with
    | '$' :: '2' :: 'b' :: '$' :: _ :: _ :: '$' :: _ :: _ :: _ :: _ :: d =>
        Except.ok (decide (d = bcryptBody pw))
    | _ => Except.error ("Invalid hash")

/-- DatabaseStorage.hashPassword: bcrypt.hashSync(password, 10); the salt is
the random salt generated by the library on that call. -/
def dbHashPassword (s1 s2 s3 s4 : Char) (p : String) : String :=
  bcryptHashSync '1' '0' s1 s2 s3 s4 p

/-- DatabaseStorage.validatePassword: try bcrypt.compareSync, catching any
thrown error and returning false. -/
def dbValidatePassword (p : Option String) (h : String) : Bool :=
  match bcryptCompareSyncE p h with
  | Except.ok b => b
  | Except.error _ => false

/-- DatabaseStorage.hashFilePassword: bcrypt.hashSync(password, 12). -/
def dbHashFilePassword (s1 s2 s3 s4 : Char) (p : String) : String :=
  bcryptHashSync '1' '2' s1 s2 s3 s4 p

/-- DatabaseStorage.validateFilePassword: identical try/catch body around
bcrypt.compareSync. -/
def dbValidateFilePassword (p : Option String) (h : String) : Bool :=
  match bcryptCompareSyncE p h with
  | Except.ok b => b
  | Except.error _ => false

/-- Base64 encoding of a byte list into sextets, three bytes per group of
four sextets, with 64 standing for the padding character.  This is the byte
level of the platform btoa function used by MemStorage.hashPassword. -/
def b64EncNat : List Nat → List Nat
  | [] => []
  | [a] => [a / 4, a % 4 * 16, 64, 64]
  | [a, b] => [a / 4, a % 4 * 16 + b / 16, b % 16 * 4, 64]
  | a :: b :: c :: rest =>
      (a / 4) :: (a % 4 * 16 + b / 16) :: (b % 16 * 4 + c / 64) :: (c % 64) :: b64EncNat rest

/-- Base64 decoding at the sextet level, the inverse of `b64EncNat` used to
establish its injectivity. -/
def b64DecNat : List Nat → List Nat
  | s0 :: s1 :: s2 :: s3 :: rest =>
      if s2 = 64 then [s0 * 4 + s1 / 16]
      else if s3 = 64 then [s0 * 4 + s1 / 16, s1 % 16 * 16 + s2 / 4]
      else (s0 * 4 + s1 / 16) :: (s1 % 16 * 16 + s2 / 4) :: (s2 % 4 * 64 + s3) :: b64DecNat rest
  | _ => []

/-- The base64 alphabet followed by the padding character at index 64. -/
def b64Alphabet : List Char :=
  ("ABCDEFGHIJKLMNOPQRSTUVWXYZabcdefghijklmnopqrstuvwxyz0123456789+/=").data

/-- Character for one sextet (or 64 for padding). -/
def sextetChar (n : Nat) : Char :=
  b64Alphabet.getD n ('?')

/-- The platform btoa function: base64 over the Latin-1 code points of the
input string (btoa throws on code points above 255, so its behaviour is only
specified for Latin-1 inputs). -/
def btoa (s : String) : String :=
  ⟨(b64EncNat (s.data.map Char.toNat)).map sextetChar⟩

/-- MemStorage.hashPassword: btoa applied to the password with the fixed salt literal appended. -/
def memHashPassword (p : String) : String :=
  btoa (p ++ "salt")

/-- MemStorage.validatePassword: hashPassword(password) === hash. -/
def memValidatePassword (p h : String) : Bool :=
  decide (memHashPassword p = h)

/-- The files table row shape, as used by the route handlers.  The schema file
itself is not among the sources; the fields are those read and written by
server/routes.ts and the storage layer (timestamp bookkeeping columns that no
route reads are omitted).  Note that a file has an isLocked flag but no
password-hash column of its own. -/
structure File where
  id : Nat
  userId : Nat
  originalName : String
  fileSize : Int
  fileType : String
  storagePath : String
  shareCode : Option String
  isPublic : Bool
  isLocked : Bool
  downloadLimit : Option Int
  downloadCount : Int
  expiresAt : Option Int
deriving DecidableEq

/-- The shared_links table row shape, as used by the route handlers. -/
structure SharedLink where
  id : Nat
  fileId : Nat
  linkType : String
  shareToken : String
  recipientEmail : Option String
  passwordHash : Option String
  expiresAt : Option Int
  downloadLimit : Option Int
  downloadCount : Int
  isActive : Bool
deriving DecidableEq

/-- A download_logs row (the AuditEntry of the spec). -/
structure DownloadLog where
  fileId : Nat
  sharedLinkId : Option Nat
  downloadMethod : String
  downloaderIp : Option String
  downloaderUserAgent : Option String
deriving DecidableEq

/-- A partial update of a file row: Partial of the insert shape, `none`
meaning the key is absent from the update object. -/
structure FileUpdate where
  userId : Option Nat := none
  originalName : Option String := none
  fileSize : Option Int := none
  fileType : Option String := none
  storagePath : Option String := none
  shareCode : Option (Option String) := none
  isPublic : Option Bool := none
  isLocked : Option Bool := none
  downloadLimit : Option (Option Int) := none
  downloadCount : Option Int := none
  expiresAt : Option (Option Int) := none
deriving DecidableEq

/-- The JavaScript object spread applying a partial update to a file row. -/
def applyFileUpdate (f : File) (u : FileUpdate) : File :=
  { id := f.id
    userId := u.userId.getD f.userId
    originalName := u.originalName.getD f.originalName
    fileSize := u.fileSize.getD f.fileSize
    fileType := u.fileType.getD f.fileType
    storagePath := u.storagePath.getD f.storagePath
    shareCode := u.shareCode.getD f.shareCode
    isPublic := u.isPublic.getD f.isPublic
    isLocked := u.isLocked.getD f.isLocked
    downloadLimit := u.downloadLimit.getD f.downloadLimit
    downloadCount := u.downloadCount.getD f.downloadCount
    expiresAt := u.expiresAt.getD f.expiresAt }

/-- A partial update of a shared link row (the narrowed updateSharedLink
overload of DatabaseStorage takes downloadCount and isActive). -/
structure LinkUpdate where
  downloadCount : Option Int := none
  isActive : Option Bool := none
deriving DecidableEq

/-- Object spread applying a partial update to a shared link row. -/
def applyLinkUpdate (l : SharedLink) (u : LinkUpdate) : SharedLink :=
  { l with
    downloadCount := u.downloadCount.getD l.downloadCount
    isActive := u.isActive.getD l.isActive }

/-- The database state visible to the access-control routes. -/
structure Store where
  files : List File
  links : List SharedLink
  logs : List DownloadLog
deriving DecidableEq

/-- DatabaseStorage.getFileByShareCode: select where shareCode = code limit 1. -/
def getFileByShareCode (st : Store) (code : String) : Option File :=
  st.files.find? (fun f => decide (f.shareCode = some code))

/-- DatabaseStorage.getFile: select where id = id limit 1. -/
def getFile (st : Store) (id : Nat) : Option File :=
  st.files.find? (fun f => decide (f.id = id))

/-- DatabaseStorage.getSharedLink: select where shareToken = token limit 1. -/
def getSharedLink (st : Store) (token : String) : Option SharedLink :=
  st.links.find? (fun l => decide (l.shareToken = token))

/-- DatabaseStorage.updateFile: an unconditional UPDATE ... SET of the given
fields on the row(s) whose id matches; there is no predicate on the current
downloadCount (no conditional update). -/
def dbUpdateFile (st : Store) (id : Nat) (u : FileUpdate) : Store :=
  { st with files := st.files.map (fun f => if f.id = id then applyFileUpdate f u else f) }

/-- DatabaseStorage.updateSharedLink: unconditional UPDATE ... SET by id. -/
def dbUpdateSharedLink (st : Store) (id : Nat) (u : LinkUpdate) : Store :=
  { st with links := st.links.map (fun l => if l.id = id then applyLinkUpdate l u else l) }

/-- DatabaseStorage.createDownloadLog: INSERT of one audit row. -/
def dbCreateDownloadLog (st : Store) (log : DownloadLog) : Store :=
  { st with logs := st.logs ++ [log] }

/-- Number of audit entries recorded for a file. -/
def auditCount (st : Store) (fileId : Nat) : Nat :=
  (st.logs.filter (fun l => decide (l.fileId = fileId))).length

/-- Payload of GET /api/public/file/:shareCode. -/
structure PublicFilePayload where
  id : Nat
  originalName : String
  fileSize : Int
  fileType : String
  downloadCount : Int
  downloadLimit : Option Int
  expiresAt : Option Int
  shareCode : Option String
deriving DecidableEq

/-- Payload of GET /api/shared/:token. -/
structure SharedInfoPayload where
  id : Nat
  originalName : String
  fileSize : Int
  fileType : String
  linkType : String
  downloadCount : Int
  downloadLimit : Option Int
  expiresAt : Option Int
deriving DecidableEq

/-- The externally observable outcome of an access route: an HTTP error
response or the served file content. -/
inductive Resp where
  | notFound
  | expired
  | limitReached
  | passwordRequired
  | invalidPassword
  | notPublic
  | inactive
  | missingOnDisk
  | serve (storagePath : String) (originalName : String)
  | publicInfo (p : PublicFilePayload)
  | sharedPayload (p : SharedInfoPayload)
deriving DecidableEq

/-- path.join(process.cwd(), storagePath) for the plain relative paths the
upload pipeline produces. -/
def pathJoin (a b : String) : String :=
  a ++ "/" ++ b

/-- GET /api/download/code/:shareCode.  Checks expiry and download limit, then
logs the download, increments the counter and serves the file.  There is no
isLocked or password check on this route. -/
def downloadByCode (now : Int) (ip ua : Option String) (shareCode : String) (st : Store) :
    Resp × Store :=
  match getFileByShareCode st shareCode with
  | none => (Resp.notFound, st)
  | some file =>
    if expiredChk file.expiresAt now then (Resp.expired, st)
    else if limitReachedChk file.downloadLimit file.downloadCount then (Resp.limitReached, st)
    else
      let st1 := dbCreateDownloadLog st
        { fileId := file.id, sharedLinkId := none, downloadMethod := "code",
          downloaderIp := ip, downloaderUserAgent := ua }
      let st2 := dbUpdateFile st1 file.id { downloadCount := some (file.downloadCount + 1) }
      (Resp.serve file.storagePath file.originalName, st2)

/-- POST /api/download/link/:token.  Note the order: the password guard comes
before the expiry and limit guards. -/
def downloadLink (now : Int) (ip ua : Option String) (token : String)
    (password : Option String) (st : Store) : Resp × Store :=
  match getSharedLink st token with
  | none => (Resp.notFound, st)
  | some link =>
    if !link.isActive then (Resp.notFound, st)
    else if strTruthy link.passwordHash &&
        !dbValidatePassword password (link.passwordHash.getD ("")) then
      (Resp.invalidPassword, st)
    else if expiredChk link.expiresAt now then (Resp.expired, st)
    else if limitReachedChk link.downloadLimit link.downloadCount then (Resp.limitReached, st)
    else
      match getFile st link.fileId with
      | none => (Resp.notFound, st)
      | some file =>
        let st1 := dbCreateDownloadLog st
          { fileId := file.id, sharedLinkId := some link.id, downloadMethod := "link",
            downloaderIp := ip, downloaderUserAgent := ua }
        let st2 := dbUpdateSharedLink st1 link.id { downloadCount := some (link.downloadCount + 1) }
        let st3 := dbUpdateFile st2 file.id { downloadCount := some (file.downloadCount + 1) }
        (Resp.serve file.storagePath file.originalName, st3)

/-- GET /api/public/download/:shareCode.  The password of a locked file is
validated against the share code string itself (not a password hash), and the
password guards precede the expiry and limit guards. -/
def publicDownload (now : Int) (cwd : String) (disk : String → Bool) (ip ua : Option String)
    (shareCode : String) (password : Option String) (st : Store) : Resp × Store :=
  match getFileByShareCode st shareCode with
  | none => (Resp.notFound, st)
  | some file =>
    if !file.isPublic then (Resp.notPublic, st)
    else if file.isLocked && !strTruthy password then (Resp.passwordRequired, st)
    else if file.isLocked && !dbValidatePassword password (file.shareCode.getD ("")) then
      (Resp.invalidPassword, st)
    else if expiredChk file.expiresAt now then (Resp.expired, st)
    else if limitReachedChk file.downloadLimit file.downloadCount then (Resp.limitReached, st)
    else if !disk (pathJoin cwd file.storagePath) then (Resp.missingOnDisk, st)
    else
      let st1 := dbUpdateFile st file.id { downloadCount := some (file.downloadCount + 1) }
      let st2 := dbCreateDownloadLog st1
        { fileId := file.id, sharedLinkId := none, downloadMethod := "public_link",
          downloaderIp := ip, downloaderUserAgent := ua }
      (Resp.serve file.storagePath file.originalName, st2)

/-- GET /api/public/file/:shareCode: the read-only checkAccess route for
direct-code targets.  Every branch leaves the store untouched. -/
def publicFileInfo (now : Int) (shareCode : String) (password : Option String) (st : Store) :
    Resp × Store :=
  match getFileByShareCode st shareCode with
  | none => (Resp.notFound, st)
  | some file =>
    if !file.isPublic then (Resp.notPublic, st)
    else if file.isLocked && !strTruthy password then (Resp.passwordRequired, st)
    else if file.isLocked && strTruthy password &&
        !dbValidatePassword password (file.shareCode.getD ("")) then
      (Resp.invalidPassword, st)
    else if expiredChk file.expiresAt now then (Resp.expired, st)
    else if limitReachedChk file.downloadLimit file.downloadCount then (Resp.limitReached, st)
    else
      (Resp.publicInfo
        { id := file.id, originalName := file.originalName, fileSize := file.fileSize,
          fileType := file.fileType, downloadCount := file.downloadCount,
          downloadLimit := file.downloadLimit, expiresAt := file.expiresAt,
          shareCode := file.shareCode }, st)

/-- GET /api/shared/:token: the read-only checkAccess route for shared links.
Expiry and limit precede the password guard on this route. -/
def sharedInfo (now : Int) (token : String) (password : Option String) (st : Store) :
    Resp × Store :=
  match getSharedLink st token with
  | none => (Resp.notFound, st)
  | some link =>
    if !link.isActive then (Resp.inactive, st)
    else if expiredChk link.expiresAt now then (Resp.expired, st)
    else if limitReachedChk link.downloadLimit link.downloadCount then (Resp.limitReached, st)
    else if strTruthy link.passwordHash && !strTruthy password then (Resp.passwordRequired, st)
    else if strTruthy link.passwordHash &&
        !dbValidatePassword password (link.passwordHash.getD ("")) then
      (Resp.invalidPassword, st)
    else
      match getFile st link.fileId with
      | none => (Resp.notFound, st)
      | some file =>
        (Resp.sharedPayload
          { id := file.id, originalName := file.originalName, fileSize := file.fileSize,
            fileType := file.fileType, linkType := link.linkType,
            downloadCount := link.downloadCount, downloadLimit := link.downloadLimit,
            expiresAt := link.expiresAt }, st)

/-- POST /api/download/shared/:token.  Expiry and limit precede the password
guard; only the link counter is incremented (not the file counter), using
validateFilePassword. -/
def downloadShared (now : Int) (cwd : String) (disk : String → Bool) (ip ua : Option String)
    (token : String) (password : Option String) (st : Store) : Resp × Store :=
  match getSharedLink st token with
  | none => (Resp.notFound, st)
  | some link =>
    if !link.isActive then (Resp.notFound, st)
    else if expiredChk link.expiresAt now then (Resp.expired, st)
    else if limitReachedChk link.downloadLimit link.downloadCount then (Resp.limitReached, st)
    else if strTruthy link.passwordHash && !strTruthy password then (Resp.passwordRequired, st)
    else if strTruthy link.passwordHash &&
        !dbValidateFilePassword password (link.passwordHash.getD ("")) then
      (Resp.invalidPassword, st)
    else
      match getFile st link.fileId with
      | none => (Resp.notFound, st)
      | some file =>
        if !disk (pathJoin cwd file.storagePath) then (Resp.missingOnDisk, st)
        else
          let st1 := dbUpdateSharedLink st link.id
            { downloadCount := some (link.downloadCount + 1) }
          let st2 := dbCreateDownloadLog st1
            { fileId := file.id, sharedLinkId := some link.id, downloadMethod := "shared_link",
              downloaderIp := ip, downloaderUserAgent := ua }
          (Resp.serve file.storagePath file.originalName, st2)

/-- Phases of one in-flight GET /api/download/code/:shareCode request.  The
storage reads and the pure guards do not write, so they are folded into the
first step; each awaited storage write is its own atomic step, which is
exactly the interleaving granularity of the handler. -/
inductive CodeReqPhase where
  | start
  | granted (file : File)
  | logged (file : File)
  | done (r : Resp)
deriving DecidableEq

/-- One scheduler step of a GET /api/download/code/:shareCode request. -/
def codeReqStep (now : Int) (ip ua : Option String) (shareCode : String)
    (st : Store) : CodeReqPhase → Store × CodeReqPhase
  | CodeReqPhase.start =>
    (match getFileByShareCode st shareCode with
     | none => (st, CodeReqPhase.done Resp.notFound)
     | some file =>
       if expiredChk file.expiresAt now then (st, CodeReqPhase.done Resp.expired)
       else if limitReachedChk file.downloadLimit file.downloadCount then
         (st, CodeReqPhase.done Resp.limitReached)
       else (st, CodeReqPhase.granted file))
  | CodeReqPhase.granted file =>
    (dbCreateDownloadLog st
      { fileId := file.id, sharedLinkId := none, downloadMethod := "code",
        downloaderIp := ip, downloaderUserAgent := ua }, CodeReqPhase.logged file)
  | CodeReqPhase.logged file =>
    (dbUpdateFile st file.id { downloadCount := some (file.downloadCount + 1) },
     CodeReqPhase.done (Resp.serve file.storagePath file.originalName))
  | CodeReqPhase.done r => (st, CodeReqPhase.done r)

/-- Run a fixed number of steps of a single code-download request; stopping
short of completion models a crash between the storage writes. -/
def runCodeSteps (now : Int) (ip ua : Option String) (shareCode : String) :
    Nat → Store × CodeReqPhase → Store × CodeReqPhase
  | 0, s => s
  | n + 1, s => runCodeSteps now ip ua shareCode n (codeReqStep now ip ua shareCode s.1 s.2)

/-- Phases of one in-flight POST /api/download/link/:token request, at the
same granularity: reads and pure guards first, then the three storage writes
(audit log, link counter, file counter) as separate atomic steps. -/
inductive LinkReqPhase where
  | start
  | granted (link : SharedLink) (file : File)
  | logged (link : SharedLink) (file : File)
  | linkCounted (link : SharedLink) (file : File)
  | done (r : Resp)
deriving DecidableEq

/-- One scheduler step of a POST /api/download/link/:token request.  The
counter writes use the row snapshots taken by the first step, exactly as the
handler closes over the link and file objects it read. -/
def linkReqStep (now : Int) (ip ua : Option String) (token : String)
    (password : Option String) (st : Store) : LinkReqPhase → Store × LinkReqPhase
  | LinkReqPhase.start =>
    (match getSharedLink st token with
     | none => (st, LinkReqPhase.done Resp.notFound)
     | some link =>
       if !link.isActive then (st, LinkReqPhase.done Resp.notFound)
       else if strTruthy link.passwordHash &&
           !dbValidatePassword password (link.passwordHash.getD ("")) then
         (st, LinkReqPhase.done Resp.invalidPassword)
       else if expiredChk link.expiresAt now then (st, LinkReqPhase.done Resp.expired)
       else if limitReachedChk link.downloadLimit link.downloadCount then
         (st, LinkReqPhase.done Resp.limitReached)
       else
         match getFile st link.fileId with
         | none => (st, LinkReqPhase.done Resp.notFound)
         | some file => (st, LinkReqPhase.granted link file))
  | LinkReqPhase.granted link file =>
    (dbCreateDownloadLog st
      { fileId := file.id, sharedLinkId := some link.id, downloadMethod := "link",
        downloaderIp := ip, downloaderUserAgent := ua }, LinkReqPhase.logged link file)
  | LinkReqPhase.logged link file =>
    (dbUpdateSharedLink st link.id { downloadCount := some (link.downloadCount + 1) },
     LinkReqPhase.linkCounted link file)
  | LinkReqPhase.linkCounted _link file =>
    (dbUpdateFile st file.id { downloadCount := some (file.downloadCount + 1) },
     LinkReqPhase.done (Resp.serve file.storagePath file.originalName))
  | LinkReqPhase.done r => (st, LinkReqPhase.done r)

/-- Interleave two link-download requests over the shared store: `true`
schedules a step of the first request, `false` a step of the second. -/
def runTwoLinkReqs (now : Int) (ip ua : Option String) (token : String)
    (password : Option String) :
    List Bool → Store × LinkReqPhase × LinkReqPhase → Store × LinkReqPhase × LinkReqPhase
  | [], s => s
  | b :: rest, (st, p1, p2) =>
    if b then
      let s1 := linkReqStep now ip ua token password st p1
      runTwoLinkReqs now ip ua token password rest (s1.1, s1.2, p2)
    else
      let s2 := linkReqStep now ip ua token password st p2
      runTwoLinkReqs now ip ua token password rest (s2.1, p1, s2.2)

/-- Association-list get, modelling Map.prototype.get. -/
def aget {α : Type} [DecidableEq α] {β : Type} : List (α × β) → α → Option β
  | [], _ => none
  | p :: rest, k => if p.1 = k then some p.2 else aget rest k

/-- Association-list key removal, modelling Map.prototype.delete. -/
def aerase {α : Type} [DecidableEq α] {β : Type} (m : List (α × β)) (k : α) : List (α × β) :=
  m.filter (fun p => decide (¬ p.1 = k))

/-- Association-list insertion or replacement, modelling Map.prototype.set. -/
def aset {α : Type} [DecidableEq α] {β : Type} (m : List (α × β)) (k : α) (v : β) :
    List (α × β) :=
  (k, v) :: aerase m k

/-- The insert shape of a file row, as passed to MemStorage.createFile (the
nullable fields are already normalised to Option). -/
structure InsertFile where
  userId : Nat
  originalName : String
  fileSize : Int
  fileType : String
  storagePath : String
  shareCode : Option String
  isPublic : Bool
  isLocked : Bool
  downloadLimit : Option Int
  downloadCount : Int
  expiresAt : Option Int
deriving DecidableEq

/-- The in-memory maps of MemStorage relevant to files and shares.  Ids are
modelled by a fresh-id counter standing for crypto.randomUUID. -/
structure MemState where
  files : List (Nat × File)
  codeIdx : List (String × Nat)
  links : List (Nat × SharedLink)
  tokenIdx : List (String × Nat)
  logs : List (Nat × DownloadLog)
  nextId : Nat
deriving DecidableEq

/-- A fresh MemStorage instance: all maps empty. -/
def memInit : MemState :=
  { files := [], codeIdx := [], links := [], tokenIdx := [], logs := [], nextId := 0 }

/-- MemStorage.getFileByShareCode: resolve the share-code index, then the file
map. -/
def memGetFileByShareCode (st : MemState) (code : String) : Option File :=
  match aget st.codeIdx code with
  | none => none
  | some id => aget st.files id

/-- The file row MemStorage.createFile builds from an insert row and a fresh id. -/
def insertToFile (id : Nat) (ins : InsertFile) : File :=
  { id := id, userId := ins.userId, originalName := ins.originalName,
    fileSize := ins.fileSize, fileType := ins.fileType, storagePath := ins.storagePath,
    shareCode := ins.shareCode, isPublic := ins.isPublic, isLocked := ins.isLocked,
    downloadLimit := ins.downloadLimit, downloadCount := ins.downloadCount,
    expiresAt := ins.expiresAt }

/-- MemStorage.createFile: store the new row under a fresh id and, when the
share code is truthy, point the share-code index at it. -/
def memCreateFile (st : MemState) (ins : InsertFile) : MemState × File :=
  let file := insertToFile st.nextId ins
  let codeIdx1 :=
    if strTruthy file.shareCode then aset st.codeIdx (file.shareCode.getD ("")) st.nextId
    else st.codeIdx
  let st1 : MemState :=
    { files := aset st.files st.nextId file
      codeIdx := codeIdx1
      links := st.links
      tokenIdx := st.tokenIdx
      logs := st.logs
      nextId := st.nextId + 1 }
  (st1, file)

/-- The strict-inequality test `fileUpdate.shareCode !== existing.shareCode`
where the update key may be absent (undefined). -/
def jsShareCodeNe (u : Option (Option String)) (e : Option String) : Bool :=
  match u with
  | none => true
  | some v => decide (¬ v = e)

/-- MemStorage.updateFile: drop the stale index key when a truthy share code
is being changed, spread the update over the row, and re-index a truthy
resulting share code. -/
def memUpdateFile (st : MemState) (id : Nat) (u : FileUpdate) : MemState × Option File :=
  match aget st.files id with
  | none => (st, none)
  | some existing =>
    let codeIdx1 :=
      if strTruthy existing.shareCode && jsShareCodeNe u.shareCode existing.shareCode then
        aerase st.codeIdx (existing.shareCode.getD (""))
      else st.codeIdx
    let updated := applyFileUpdate existing u
    let codeIdx2 :=
      if strTruthy updated.shareCode then aset codeIdx1 (updated.shareCode.getD ("")) id
      else codeIdx1
    ({ st with files := aset st.files id updated, codeIdx := codeIdx2 }, some updated)

/-- MemStorage.deleteFile: drop the truthy share-code key, cascade-delete the
shared links (and their token-index keys) and download logs of the file, and
remove the row. -/
def memDeleteFile (st : MemState) (id : Nat) : MemState × Bool :=
  match aget st.files id with
  | none => (st, false)
  | some file =>
    let codeIdx1 :=
      if strTruthy file.shareCode then aerase st.codeIdx (file.shareCode.getD (""))
      else st.codeIdx
    let linksToDelete := st.links.filter (fun p => decide (p.2.fileId = id))
    let links1 := linksToDelete.foldl (fun m p => aerase m p.1) st.links
    let tokenIdx1 := linksToDelete.foldl (fun m p => aerase m p.2.shareToken) st.tokenIdx
    let logsToDelete := st.logs.filter (fun p => decide (p.2.fileId = id))
    let logs1 := logsToDelete.foldl (fun m p => aerase m p.1) st.logs
    let st1 : MemState :=
      { files := aerase st.files id
        codeIdx := codeIdx1
        links := links1
        tokenIdx := tokenIdx1
        logs := logs1
        nextId := st.nextId }
    (st1, true)

/-- A file-map operation of MemStorage. -/
inductive MemOp where
  | create (ins : InsertFile)
  | update (id : Nat) (u : FileUpdate)
  | delete (id : Nat)
deriving DecidableEq

/-- Apply one MemStorage operation to the state. -/
def memApply (st : MemState) : MemOp → MemState
  | MemOp.create ins => (memCreateFile st ins).1
  | MemOp.update id u => (memUpdateFile st id u).1
  | MemOp.delete id => (memDeleteFile st id).1

/-- Run a sequence of MemStorage operations from a fresh instance. -/
def memRun (ops : List MemOp) : MemState :=
  ops.foldl memApply memInit

/-- Soundness invariant of the share-code index: stored file ids are below the
fresh-id counter, and every index entry is a truthy code pointing at a stored
file whose shareCode field is that code. -/
def MemInv (st : MemState) : Prop :=
  (∀ id f, aget st.files id = some f → id < st.nextId) ∧
  (∀ c id, aget st.codeIdx c = some id →
    ¬ c = "" ∧ ∃ f, aget st.files id = some f ∧ f.shareCode = some c)

/-- Per-file counter invariant of the spec data model (section 3), restricted
to positive limits: the counter is non-negative and within a positive limit. -/
def FileCounterInv (f : File) : Prop :=
  0 ≤ f.downloadCount ∧ ∀ l, f.downloadLimit = some l → 0 < l → f.downloadCount ≤ l

/-- Per-link counter invariant, restricted to positive limits. -/
def LinkCounterInv (l : SharedLink) : Prop :=
  0 ≤ l.downloadCount ∧ ∀ v, l.downloadLimit = some v → 0 < v → l.downloadCount ≤ v

/-- All file rows satisfy the counter invariant. -/
def StoreFileInv (st : Store) : Prop :=
  ∀ f ∈ st.files, FileCounterInv f

/-- All link rows satisfy the counter invariant. -/
def StoreLinkInv (st : Store) : Prop :=
  ∀ l ∈ st.links, LinkCounterInv l

/-- File ids are a primary key: two rows with the same id are the same row. -/
def FilesIdUnique (st : Store) : Prop :=
  ∀ f ∈ st.files, ∀ g ∈ st.files, f.id = g.id → f = g

/-- Link ids are a primary key. -/
def LinksIdUnique (st : Store) : Prop :=
  ∀ l ∈ st.links, ∀ m ∈ st.links, l.id = m.id → l = m

/-- A benign example file row used to build concrete scenarios. -/
def egFile : File :=
  { id := 1, userId := 7, originalName := "report.pdf", fileSize := 100,
    fileType := "application/pdf", storagePath := "uploads/abc",
    shareCode := some ("CODE1234"), isPublic := true, isLocked := false,
    downloadLimit := none, downloadCount := 0, expiresAt := none }

/-- A locked file reachable by share code: password protection is set. -/
def c1File : File :=
  { egFile with isLocked := true, shareCode := some ("LOCKED01") }

/-- Store holding only the locked file. -/
def c1Store : Store :=
  { files := [c1File], links := [], logs := [] }

/-- An active link with downloadLimit 1 and downloadCount 0. -/
def c2Link : SharedLink :=
  { id := 1, fileId := 1, linkType := "public", shareToken := "tok",
    recipientEmail := none, passwordHash := none, expiresAt := none,
    downloadLimit := some 1, downloadCount := 0, isActive := true }

/-- Store for the concurrency scenario: one file, one limit-1 link. -/
def c2Store : Store :=
  { files := [egFile], links := [c2Link], logs := [] }

/-- A schedule in which both requests pass the limit check before either of
them performs a write: first request checks, second request checks, then each
completes its three writes. -/
def c2Schedule : List Bool :=
  [true, false, true, true, true, false, false, false]

/-- A stored password hash for the plaintext secret. -/
def c3Hash : String :=
  dbHashFilePassword 'q' 'r' 's' 't' ("secret")

/-- A password-protected link that expired at time 5. -/
def c3Link : SharedLink :=
  { c2Link with downloadLimit := none, passwordHash := some c3Hash, expiresAt := some 5 }

/-- Store holding the expired, password-protected link. -/
def c3Store : Store :=
  { files := [egFile], links := [c3Link], logs := [] }

/-- An active link without a password hash that expired at time 5. -/
def c3Link2 : SharedLink :=
  { c2Link with shareToken := "tok2", downloadLimit := none, expiresAt := some 5 }

/-- Store holding the expired, password-free link. -/
def c3Store2 : Store :=
  { files := [egFile], links := [c3Link2], logs := [] }

/-- A public, unlocked file that expired at time 5. -/
def c3File : File :=
  { egFile with expiresAt := some 5 }

/-- Store holding the expired file. -/
def c3FileStore : Store :=
  { files := [c3File], links := [], logs := [] }

/-- A file whose download limit of 1 is already exhausted. -/
def c4File : File :=
  { egFile with downloadLimit := some 1, downloadCount := 1 }

/-- An active, unlimited link to the exhausted file. -/
def c4Link : SharedLink :=
  { c2Link with downloadLimit := none }

/-- Store pairing the exhausted file with the unlimited link. -/
def c4Store : Store :=
  { files := [c4File], links := [c4Link], logs := [] }

/-- Store for the partial-failure scenario: one unrestricted file, no logs. -/
def c5Store : Store :=
  { files := [egFile], links := [], logs := [] }

/-- A file with downloadLimit literally 0 (and a running counter). -/
def c9File : File :=
  { egFile with downloadLimit := some 0, downloadCount := 5 }

/-- A link with downloadLimit literally 0. -/
def c9Link : SharedLink :=
  { c2Link with downloadLimit := some 0, downloadCount := 7 }

/-- Store for the zero-limit scenario. -/
def c9Store : Store :=
  { files := [c9File], links := [c9Link], logs := [] }

/-- An insert row carrying a share code. -/
def c10Ins : InsertFile :=
  { userId := 7, originalName := "a.txt", fileSize := 3, fileType := "text/plain",
    storagePath := "uploads/x", shareCode := some ("AB"), isPublic := true,
    isLocked := false, downloadLimit := none, downloadCount := 0, expiresAt := none }

/-- The file row MemStorage.createFile builds from `c10Ins` under id 0. -/
def c10File : File :=
  { id := 0, userId := 7, originalName := "a.txt", fileSize := 3, fileType := "text/plain",
    storagePath := "uploads/x", shareCode := some ("AB"), isPublic := true,
    isLocked := false, downloadLimit := none, downloadCount := 0, expiresAt := none }

theorem string_data_append (a b : String) : (a ++ b).data = a.data ++ b.data := by
  cases a
  cases b
  rfl

theorem string_data_inj (a b : String) (h : a.data = b.data) : a = b := by
  cases a
  cases b
  exact congrArg String.mk h

theorem char_toNat_inj (c d : Char) (h : c.toNat = d.toNat) : c = d :=
  Char.ext (UInt32.ext h)

theorem b64DecNat_b64EncNat :
    ∀ xs : List Nat, (∀ x ∈ xs, x < 256) → b64DecNat (b64EncNat xs) = xs := by
  intro xs
  induction xs using b64EncNat.induct with
  | case1 => intro _; rfl
  | case2 a =>
    intro h
    have ha : a < 256 := h a (by simp)
    simp [b64EncNat, b64DecNat]
    omega
  | case3 a b =>
    intro h
    have ha : a < 256 := h a (by simp)
    have hb : b < 256 := h b (by simp)
    have h1 : ¬ b % 16 * 4 = 64 := by omega
    simp [b64EncNat, b64DecNat, h1]
    omega
  | case4 a b c rest ih =>
    intro h
    have ha : a < 256 := h a (by simp)
    have hb : b < 256 := h b (by simp)
    have hc : c < 256 := h c (by simp)
    have hy : ¬ (b % 16 * 4 + c / 64 = 64) := by omega
    have hz : ¬ (c % 64 = 64) := by omega
    have hrest : ∀ x ∈ rest, x < 256 := by
      intro x hx
      exact h x (by simp [hx])
    simp [b64EncNat, b64DecNat, hy, hz, ih hrest]
    omega

theorem b64EncNat_le :
    ∀ xs : List Nat, (∀ x ∈ xs, x < 256) → ∀ y ∈ b64EncNat xs, y ≤ 64 := by
  intro xs
  induction xs using b64EncNat.induct with
  | case1 =>
    intro _ y hy
    simp [b64EncNat] at hy
  | case2 a =>
    intro h y hy
    have ha : a < 256 := h a (by simp)
    simp [b64EncNat] at hy
    omega
  | case3 a b =>
    intro h y hy
    have ha : a < 256 := h a (by simp)
    have hb : b < 256 := h b (by simp)
    simp [b64EncNat] at hy
    omega
  | case4 a b c rest ih =>
    intro h y hy
    have ha : a < 256 := h a (by simp)
    have hb : b < 256 := h b (by simp)
    have hc : c < 256 := h c (by simp)
    have hrest : ∀ x ∈ rest, x < 256 := by
      intro x hx
      exact h x (by simp [hx])
    simp [b64EncNat] at hy
    rcases hy with hy | hy | hy | hy | hy
    · omega
    · omega
    · omega
    · omega
    · exact ih hrest y hy

theorem map_inj_of_inj_on {α β : Type} (f : α → β) :
    ∀ (l1 l2 : List α), (∀ a ∈ l1, ∀ b ∈ l2, f a = f b → a = b) →
      l1.map f = l2.map f → l1 = l2 := by
  intro l1
  induction l1 with
  | nil =>
    intro l2 _ h2
    cases l2 with
    | nil => rfl
    | cons b t => simp at h2
  | cons a t ih =>
    intro l2 hinj h2
    cases l2 with
    | nil => simp at h2
    | cons b t2 =>
      simp only [List.map_cons, List.cons.injEq] at h2
      have hab : a = b := hinj a (by simp) b (by simp) h2.1
      subst hab
      have ht : t = t2 :=
        ih t2 (fun x hx y hy => hinj x (by simp [hx]) y (by simp [hy])) h2.2
      simp [ht]

theorem sextetChar_inj : ∀ a < 65, ∀ b < 65, sextetChar a = sextetChar b → a = b := by
  decide

theorem btoa_inj (s t : String) (hs : ∀ c ∈ s.data, c.toNat < 256)
    (ht : ∀ c ∈ t.data, c.toNat < 256) (h : btoa s = btoa t) : s = t := by
  have hbs : ∀ x ∈ s.data.map Char.toNat, x < 256 := by
    intro x hx
    rcases List.mem_map.mp hx with ⟨c, hc, rfl⟩
    exact hs c hc
  have hbt : ∀ x ∈ t.data.map Char.toNat, x < 256 := by
    intro x hx
    rcases List.mem_map.mp hx with ⟨c, hc, rfl⟩
    exact ht c hc
  have hd : (b64EncNat (s.data.map Char.toNat)).map sextetChar
      = (b64EncNat (t.data.map Char.toNat)).map sextetChar := congrArg String.data h
  have henc : b64EncNat (s.data.map Char.toNat) = b64EncNat (t.data.map Char.toNat) := by
    refine map_inj_of_inj_on sextetChar _ _ ?_ hd
    intro a hamem b hbmem hfe
    exact sextetChar_inj a (Nat.lt_succ_of_le (b64EncNat_le _ hbs a hamem))
      b (Nat.lt_succ_of_le (b64EncNat_le _ hbt b hbmem)) hfe
  have hlists : s.data.map Char.toNat = t.data.map Char.toNat := by
    have h1 := b64DecNat_b64EncNat _ hbs
    have h2 := b64DecNat_b64EncNat _ hbt
    rw [← h1, ← h2, henc]
  have hdata : s.data = t.data :=
    map_inj_of_inj_on Char.toNat _ _ (fun a _ b _ hab => char_toNat_inj a b hab) hlists
  exact string_data_inj _ _ hdata

theorem memHashPassword_inj (p q : String) (hp : ∀ c ∈ p.data, c.toNat < 256)
    (hq : ∀ c ∈ q.data, c.toNat < 256) (h : memHashPassword p = memHashPassword q) : p = q := by
  have hsalt : ∀ c ∈ ("salt").data, c.toNat < 256 := by decide
  have hps : ∀ c ∈ (p ++ "salt").data, c.toNat < 256 := by
    intro c hc
    rw [string_data_append] at hc
    rcases List.mem_append.mp hc with hc | hc
    · exact hp c hc
    · exact hsalt c hc
  have hqs : ∀ c ∈ (q ++ "salt").data, c.toNat < 256 := by
    intro c hc
    rw [string_data_append] at hc
    rcases List.mem_append.mp hc with hc | hc
    · exact hq c hc
    · exact hsalt c hc
  have h2 : p ++ "salt" = q ++ "salt" := btoa_inj _ _ hps hqs h
  have h3 : p.data ++ ("salt").data = q.data ++ ("salt").data := by
    rw [← string_data_append, ← string_data_append, h2]
  exact string_data_inj _ _ (List.append_cancel_right h3)

/-- C6: for every non-empty plaintext p, verify(p, hash(p)) is true, and for
distinct plaintexts p and q, verify(p, hash(q)) is false, for each of the
hash/verify pairs the storage layer exposes: MemStorage.hashPassword and
validatePassword (btoa-based, stated on Latin-1 plaintexts, the domain of
btoa), and the bcrypt-backed DatabaseStorage hashPassword/validatePassword
and hashFilePassword/validateFilePassword, the bcrypt library being modelled
from the spec as an injective salted digest. -/
theorem c6_password_roundtrip :
    (∀ p : String, ¬ p = "" → memValidatePassword p (memHashPassword p) = true) ∧
    (∀ p q : String, ¬ p = q → (∀ c ∈ p.data, c.toNat < 256) →
      (∀ c ∈ q.data, c.toNat < 256) → memValidatePassword p (memHashPassword q) = false) ∧
    (∀ s1 s2 s3 s4 : Char, ∀ p : String, ¬ p = "" →
      dbValidatePassword (some p) (dbHashPassword s1 s2 s3 s4 p) = true) ∧
    (∀ s1 s2 s3 s4 : Char, ∀ p q : String, ¬ p = q →
      dbValidatePassword (some p) (dbHashPassword s1 s2 s3 s4 q) = false) ∧
    (∀ s1 s2 s3 s4 : Char, ∀ p : String, ¬ p = "" →
      dbValidateFilePassword (some p) (dbHashFilePassword s1 s2 s3 s4 p) = true) ∧
    (∀ s1 s2 s3 s4 : Char, ∀ p q : String, ¬ p = q →
      dbValidateFilePassword (some p) (dbHashFilePassword s1 s2 s3 s4 q) = false) := by
  refine ⟨?_, ?_, ?_, ?_, ?_, ?_⟩
  · intro p _
    simp [memValidatePassword]
  · intro p q hne hp hq
    simp only [memValidatePassword, decide_eq_false_iff_not]
    intro h
    exact hne (memHashPassword_inj p q hp hq h)
  · intro s1 s2 s3 s4 p _
    have h1 : dbValidatePassword (some p) (dbHashPassword s1 s2 s3 s4 p)
        = decide (bcryptBody p = bcryptBody p) := rfl
    rw [h1]
    simp
  · intro s1 s2 s3 s4 p q hne
    have h1 : dbValidatePassword (some p) (dbHashPassword s1 s2 s3 s4 q)
        = decide (bcryptBody q = bcryptBody p) := rfl
    rw [h1]
    simp only [decide_eq_false_iff_not]
    intro hd
    exact hne (string_data_inj p q (by simpa [bcryptBody] using hd.symm))
  · intro s1 s2 s3 s4 p _
    have h1 : dbValidateFilePassword (some p) (dbHashFilePassword s1 s2 s3 s4 p)
        = decide (bcryptBody p = bcryptBody p) := rfl
    rw [h1]
    simp
  · intro s1 s2 s3 s4 p q hne
    have h1 : dbValidateFilePassword (some p) (dbHashFilePassword s1 s2 s3 s4 q)
        = decide (bcryptBody q = bcryptBody p) := rfl
    rw [h1]
    simp only [decide_eq_false_iff_not]
    intro hd
    exact hne (string_data_inj p q (by simpa [bcryptBody] using hd.symm))

/-- Witness for C6 at concrete plaintexts and a concrete library salt. -/
theorem c6_witness :
    memValidatePassword ("a") (memHashPassword ("a")) = true ∧
    memValidatePassword ("a") (memHashPassword ("b")) = false ∧
    dbValidatePassword (some ("a")) (dbHashPassword 'w' 'x' 'y' 'z' ("a")) = true ∧
    dbValidatePassword (some ("a")) (dbHashPassword 'w' 'x' 'y' 'z' ("b")) = false ∧
    dbValidateFilePassword (some ("a")) (dbHashFilePassword 'w' 'x' 'y' 'z' ("a")) = true ∧
    dbValidateFilePassword (some ("a")) (dbHashFilePassword 'w' 'x' 'y' 'z' ("b")) = false := by
  refine ⟨c6_password_roundtrip.1 ("a") (by decide),
    c6_password_roundtrip.2.1 ("a") ("b") (by decide) (by decide) (by decide),
    c6_password_roundtrip.2.2.1 'w' 'x' 'y' 'z' ("a") (by decide),
    c6_password_roundtrip.2.2.2.1 'w' 'x' 'y' 'z' ("a") ("b") (by decide),
    c6_password_roundtrip.2.2.2.2.1 'w' 'x' 'y' 'z' ("a") (by decide),
    c6_password_roundtrip.2.2.2.2.2 'w' 'x' 'y' 'z' ("a") ("b") (by decide)⟩

/-- C7: when bcrypt.compareSync throws (malformed stored hash, or a missing
candidate password), validatePassword and validateFilePassword both swallow
the exception and return false: a corrupt hash fails closed, never open. -/
theorem c7_malformed_hash_fails_closed (p : Option String) (h : String) (e : String)
    (herr : bcryptCompareSyncE p h = Except.error e) :
    dbValidatePassword p h = false ∧ dbValidateFilePassword p h = false := by
  constructor
  · simp [dbValidatePassword, herr]
  · simp [dbValidateFilePassword, herr]

/-- Witness for C7 at a concrete malformed stored hash, of the very shape the
public routes pass to validatePassword (a plain share-code string). -/
theorem c7_witness :
    bcryptCompareSyncE (some ("secret")) ("ABCD1234") = Except.error ("Invalid hash") ∧
    dbValidatePassword (some ("secret")) ("ABCD1234") = false ∧
    dbValidateFilePassword (some ("secret")) ("ABCD1234") = false := by
  have h := c7_malformed_hash_fails_closed (some ("secret")) ("ABCD1234")
    ("Invalid hash") (by rfl)
  exact ⟨by rfl, h.1, h.2⟩

theorem publicFileInfo_snd (now : Int) (sc : String) (pw : Option String) (st : Store) :
    (publicFileInfo now sc pw st).2 = st := by
  unfold publicFileInfo
  rcases getFileByShareCode st sc with _ | f
  · rfl
  · repeat (first | rfl | split)

theorem sharedInfo_snd (now : Int) (tok : String) (pw : Option String) (st : Store) :
    (sharedInfo now tok pw st).2 = st := by
  unfold sharedInfo
  rcases getSharedLink st tok with _ | l
  · rfl
  · repeat (first | rfl | split)

/-- C8: the read-only checkAccess routes (GET /api/public/file/:shareCode and
GET /api/shared/:token) never mutate the store, and a repeated call against
the state left by the first call, with the same supplied password and clock,
returns the same decision. -/
theorem c8_check_access_pure (now : Int) (sc tok : String) (pw : Option String) (st : Store) :
    (publicFileInfo now sc pw st).2 = st ∧
    (sharedInfo now tok pw st).2 = st ∧
    (publicFileInfo now sc pw ((publicFileInfo now sc pw st).2)).1
      = (publicFileInfo now sc pw st).1 ∧
    (sharedInfo now tok pw ((sharedInfo now tok pw st).2)).1
      = (sharedInfo now tok pw st).1 := by
  refine ⟨publicFileInfo_snd now sc pw st, sharedInfo_snd now tok pw st, ?_, ?_⟩
  · rw [publicFileInfo_snd]
  · rw [sharedInfo_snd]

theorem storeFileInv_dbUpdateFile_inc (st : Store) (f : File) (hmem : f ∈ st.files)
    (huniq : FilesIdUnique st) (hinv : StoreFileInv st)
    (hok : limitReachedChk f.downloadLimit f.downloadCount = false) :
    StoreFileInv (dbUpdateFile st f.id { downloadCount := some (f.downloadCount + 1) }) := by
  intro g hg
  rcases List.mem_map.mp hg with ⟨g0, hg0, rfl⟩
  by_cases hid : g0.id = f.id
  · have hgf : g0 = f := huniq g0 hg0 f hmem hid
    subst hgf
    simp only [hid, if_pos]
    constructor
    · have := (hinv g0 hg0).1
      simp [applyFileUpdate]
      omega
    · intro l hl hlpos
      simp [applyFileUpdate] at hl ⊢
      rw [hl] at hok
      simp [limitReachedChk] at hok
      omega
  · simp only [hid, if_neg, ite_false]
    exact hinv g0 hg0

theorem storeLinkInv_dbUpdateSharedLink_inc (st : Store) (l : SharedLink)
    (hmem : l ∈ st.links) (huniq : LinksIdUnique st) (hinv : StoreLinkInv st)
    (hok : limitReachedChk l.downloadLimit l.downloadCount = false) :
    StoreLinkInv (dbUpdateSharedLink st l.id { downloadCount := some (l.downloadCount + 1) }) := by
  intro m hm
  rcases List.mem_map.mp hm with ⟨m0, hm0, rfl⟩
  by_cases hid : m0.id = l.id
  · have hml : m0 = l := huniq m0 hm0 l hmem hid
    subst hml
    simp only [hid, if_pos]
    constructor
    · have := (hinv m0 hm0).1
      simp [applyLinkUpdate]
      omega
    · intro v hv hvpos
      simp [applyLinkUpdate] at hv ⊢
      rw [hv] at hok
      simp [limitReachedChk] at hok
      omega
  · simp only [hid, if_neg, ite_false]
    exact hinv m0 hm0

/-- C1 (code bug): GET /api/download/code/:shareCode serves the bytes of a
locked file without any password verification: the route takes no password
input at all and performs no lock or hash check before answering with the
file, although the spec requires that a set password protection gate every
access attempt. -/
theorem c1_locked_file_served_without_password :
    c1File.isLocked = true ∧
    (downloadByCode 0 none none ("LOCKED01") c1Store).1
      = Resp.serve ("uploads/abc") ("report.pdf") := by
  exact ⟨rfl, rfl⟩

/-- C2 (code bug): two concurrent POST /api/download/link/:token requests
against a link with downloadLimit 1 and downloadCount 0, interleaved so that
both pass the limit check before either performs a write, are both served:
2 ALLOW outcomes even though min(2, 1) = 1, because the counter update is an
unconditional read-then-write rather than a conditional update. -/
theorem c2_concurrent_double_allow :
    (runTwoLinkReqs 0 none none ("tok") none c2Schedule
        (c2Store, LinkReqPhase.start, LinkReqPhase.start)).2.1
      = LinkReqPhase.done (Resp.serve ("uploads/abc") ("report.pdf")) ∧
    (runTwoLinkReqs 0 none none ("tok") none c2Schedule
        (c2Store, LinkReqPhase.start, LinkReqPhase.start)).2.2
      = LinkReqPhase.done (Resp.serve ("uploads/abc") ("report.pdf")) ∧
    (getSharedLink (runTwoLinkReqs 0 none none ("tok") none c2Schedule
        (c2Store, LinkReqPhase.start, LinkReqPhase.start)).1 ("tok")).map
        SharedLink.downloadCount = some 1 ∧
    Nat.min 2 1 = 1 := by
  exact ⟨rfl, rfl, rfl, rfl⟩

/-- C3 counterexample: on POST /api/download/link/:token the password guard
runs before the expiry guard, so an expired, password-protected link queried
with a wrong password is answered invalid-password, not expired. -/
theorem c3_counterexample :
    expiredChk c3Link.expiresAt 10 = true ∧
    (downloadLink 10 none none ("tok") (some ("wrong")) c3Store).1
      = Resp.invalidPassword ∧
    ¬ (downloadLink 10 none none ("tok") (some ("wrong")) c3Store).1 = Resp.expired := by
  refine ⟨rfl, rfl, by decide⟩

/-- C3 (amended): expiry dominance holds on GET /api/shared/:token and
POST /api/download/shared/:token, where an expired target is reported expired
regardless of the supplied password and of the remaining limit.  On
POST /api/download/link/:token the password guard precedes the expiry guard:
an expired link whose password hash is set and whose supplied password is
missing or fails verification (a missing password fails verification, since
compareSync throws and the validator returns false) is answered
invalid-password, and otherwise it is answered expired.  On the public
share-code routes the password guards likewise precede the expiry guard: a
locked public file without a truthy password is asked for a password, and
with a failing password is answered invalid-password, expired or not.  In
every case an expired target is never served: each download route answers an
expired target with a non-serve response. -/
theorem c3_expiry_dominance_amended :
    (∀ (now : Int) (cwd : String) (disk : String → Bool) (ip ua : Option String)
      (tok : String) (pw : Option String) (st : Store) (l : SharedLink),
      getSharedLink st tok = some l → l.isActive = true →
      expiredChk l.expiresAt now = true →
      (downloadShared now cwd disk ip ua tok pw st).1 = Resp.expired) ∧
    (∀ (now : Int) (tok : String) (pw : Option String) (st : Store) (l : SharedLink),
      getSharedLink st tok = some l → l.isActive = true →
      expiredChk l.expiresAt now = true →
      (sharedInfo now tok pw st).1 = Resp.expired) ∧
    (∀ (now : Int) (ip ua : Option String) (tok : String) (pw : Option String)
      (st : Store) (l : SharedLink),
      getSharedLink st tok = some l → l.isActive = true →
      expiredChk l.expiresAt now = true →
      strTruthy l.passwordHash = true →
      dbValidatePassword pw (l.passwordHash.getD ("")) = false →
      (downloadLink now ip ua tok pw st).1 = Resp.invalidPassword) ∧
    (∀ (now : Int) (ip ua : Option String) (tok : String) (pw : Option String)
      (st : Store) (l : SharedLink),
      getSharedLink st tok = some l → l.isActive = true →
      expiredChk l.expiresAt now = true →
      (strTruthy l.passwordHash = false ∨
        dbValidatePassword pw (l.passwordHash.getD ("")) = true) →
      (downloadLink now ip ua tok pw st).1 = Resp.expired) ∧
    (∀ (now : Int) (sc : String) (pw : Option String) (st : Store) (f : File),
      getFileByShareCode st sc = some f → f.isPublic = true → f.isLocked = true →
      strTruthy pw = false →
      (publicFileInfo now sc pw st).1 = Resp.passwordRequired) ∧
    (∀ (now : Int) (sc : String) (pw : Option String) (st : Store) (f : File),
      getFileByShareCode st sc = some f → f.isPublic = true → f.isLocked = true →
      strTruthy pw = true → dbValidatePassword pw (f.shareCode.getD ("")) = false →
      (publicFileInfo now sc pw st).1 = Resp.invalidPassword) ∧
    (∀ (now : Int) (cwd : String) (disk : String → Bool) (ip ua : Option String)
      (sc : String) (pw : Option String) (st : Store) (f : File),
      getFileByShareCode st sc = some f → f.isPublic = true → f.isLocked = true →
      strTruthy pw = false →
      (publicDownload now cwd disk ip ua sc pw st).1 = Resp.passwordRequired) ∧
    (∀ (now : Int) (cwd : String) (disk : String → Bool) (ip ua : Option String)
      (sc : String) (pw : Option String) (st : Store) (f : File),
      getFileByShareCode st sc = some f → f.isPublic = true → f.isLocked = true →
      strTruthy pw = true → dbValidatePassword pw (f.shareCode.getD ("")) = false →
      (publicDownload now cwd disk ip ua sc pw st).1 = Resp.invalidPassword) ∧
    (∀ (now : Int) (ip ua : Option String) (sc : String) (st : Store) (f : File),
      getFileByShareCode st sc = some f → expiredChk f.expiresAt now = true →
      (downloadByCode now ip ua sc st).1 = Resp.expired) ∧
    (∀ (now : Int) (ip ua : Option String) (tok : String) (pw : Option String)
      (st : Store) (l : SharedLink) (p n : String),
      getSharedLink st tok = some l → expiredChk l.expiresAt now = true →
      ¬ (downloadLink now ip ua tok pw st).1 = Resp.serve p n) ∧
    (∀ (now : Int) (cwd : String) (disk : String → Bool) (ip ua : Option String)
      (sc : String) (pw : Option String) (st : Store) (f : File) (p n : String),
      getFileByShareCode st sc = some f → expiredChk f.expiresAt now = true →
      ¬ (publicDownload now cwd disk ip ua sc pw st).1 = Resp.serve p n) ∧
    (∀ (now : Int) (cwd : String) (disk : String → Bool) (ip ua : Option String)
      (tok : String) (pw : Option String) (st : Store) (l : SharedLink) (p n : String),
      getSharedLink st tok = some l → expiredChk l.expiresAt now = true →
      ¬ (downloadShared now cwd disk ip ua tok pw st).1 = Resp.serve p n) := by
  refine ⟨?_, ?_, ?_, ?_, ?_, ?_, ?_, ?_, ?_, ?_, ?_, ?_⟩
  · intro now cwd disk ip ua tok pw st l hget hact hexp
    unfold downloadShared
    rw [hget]
    simp [hact, hexp]
  · intro now tok pw st l hget hact hexp
    unfold sharedInfo
    rw [hget]
    simp [hact, hexp]
  · intro now ip ua tok pw st l hget hact hexp hhash hval
    unfold downloadLink
    rw [hget]
    simp [hact, hhash, hval]
  · intro now ip ua tok pw st l hget hact hexp hor
    unfold downloadLink
    rw [hget]
    rcases hor with hor | hor
    · simp [hact, hor, hexp]
    · simp [hact, hor, hexp]
  · intro now sc pw st f hget hpub hlock hpw
    unfold publicFileInfo
    rw [hget]
    simp [hpub, hlock, hpw]
  · intro now sc pw st f hget hpub hlock hpw hval
    unfold publicFileInfo
    rw [hget]
    simp [hpub, hlock, hpw, hval]
  · intro now cwd disk ip ua sc pw st f hget hpub hlock hpw
    unfold publicDownload
    rw [hget]
    simp [hpub, hlock, hpw]
  · intro now cwd disk ip ua sc pw st f hget hpub hlock hpw hval
    unfold publicDownload
    rw [hget]
    simp [hpub, hlock, hpw, hval]
  · intro now ip ua sc st f hget hexp
    unfold downloadByCode
    rw [hget]
    simp [hexp]
  · intro now ip ua tok pw st l p n hget hexp
    unfold downloadLink
    rw [hget]
    by_cases ha : (!l.isActive) = true
    · simp [ha]
    · by_cases hpw : (strTruthy l.passwordHash &&
          !dbValidatePassword pw (l.passwordHash.getD (""))) = true
      · simp [ha, hpw]
      · rw [Bool.not_eq_true] at hpw
        simp [ha, hpw, hexp]
  · intro now cwd disk ip ua sc pw st f p n hget hexp
    unfold publicDownload
    rw [hget]
    by_cases hp1 : (!f.isPublic) = true
    · simp [hp1]
    · by_cases hp2 : (f.isLocked && !strTruthy pw) = true
      · simp [hp1, hp2]
      · by_cases hp3 : (f.isLocked && !dbValidatePassword pw (f.shareCode.getD (""))) = true
        · simp [hp1, hp2, hp3]
        · simp [hp1, hp2, hp3, hexp]
  · intro now cwd disk ip ua tok pw st l p n hget hexp
    unfold downloadShared
    rw [hget]
    by_cases ha : (!l.isActive) = true
    · simp [ha]
    · simp [ha, hexp]

/-- Witness for the amended C3: the expired password-protected link (wrong
password), the expired password-free link, the locked public file (missing
and wrong password), and the expired public file by code. -/
theorem c3_witness :
    (downloadShared 10 ("") (fun _ => true) none none ("tok") (some ("wrong")) c3Store).1
      = Resp.expired ∧
    (sharedInfo 10 ("tok") (some ("wrong")) c3Store).1 = Resp.expired ∧
    (downloadLink 10 none none ("tok") (some ("wrong")) c3Store).1
      = Resp.invalidPassword ∧
    (downloadLink 10 none none ("tok2") none c3Store2).1 = Resp.expired ∧
    (publicFileInfo 0 ("LOCKED01") none c1Store).1 = Resp.passwordRequired ∧
    (publicFileInfo 0 ("LOCKED01") (some ("x")) c1Store).1 = Resp.invalidPassword ∧
    (publicDownload 0 ("") (fun _ => true) none none ("LOCKED01") none c1Store).1
      = Resp.passwordRequired ∧
    (publicDownload 0 ("") (fun _ => true) none none ("LOCKED01") (some ("x")) c1Store).1
      = Resp.invalidPassword ∧
    (downloadByCode 10 none none ("CODE1234") c3FileStore).1 = Resp.expired ∧
    ¬ (downloadLink 10 none none ("tok") (some ("wrong")) c3Store).1
      = Resp.serve ("uploads/abc") ("report.pdf") ∧
    ¬ (publicDownload 10 ("") (fun _ => true) none none ("CODE1234") none c3FileStore).1
      = Resp.serve ("uploads/abc") ("report.pdf") ∧
    ¬ (downloadShared 10 ("") (fun _ => true) none none ("tok") none c3Store).1
      = Resp.serve ("uploads/abc") ("report.pdf") := by
  refine ⟨c3_expiry_dominance_amended.1 10 ("") (fun _ => true) none none ("tok")
      (some ("wrong")) c3Store c3Link rfl rfl rfl,
    c3_expiry_dominance_amended.2.1 10 ("tok") (some ("wrong")) c3Store c3Link rfl rfl rfl,
    c3_expiry_dominance_amended.2.2.1 10 none none ("tok") (some ("wrong")) c3Store c3Link
      rfl rfl rfl rfl rfl,
    c3_expiry_dominance_amended.2.2.2.1 10 none none ("tok2") none c3Store2 c3Link2
      rfl rfl rfl (Or.inl rfl),
    c3_expiry_dominance_amended.2.2.2.2.1 0 ("LOCKED01") none c1Store c1File
      rfl rfl rfl rfl,
    c3_expiry_dominance_amended.2.2.2.2.2.1 0 ("LOCKED01") (some ("x")) c1Store c1File
      rfl rfl rfl rfl rfl,
    c3_expiry_dominance_amended.2.2.2.2.2.2.1 0 ("") (fun _ => true) none none
      ("LOCKED01") none c1Store c1File rfl rfl rfl rfl,
    c3_expiry_dominance_amended.2.2.2.2.2.2.2.1 0 ("") (fun _ => true) none none
      ("LOCKED01") (some ("x")) c1Store c1File rfl rfl rfl rfl rfl,
    c3_expiry_dominance_amended.2.2.2.2.2.2.2.2.1 10 none none ("CODE1234") c3FileStore
      c3File rfl rfl,
    c3_expiry_dominance_amended.2.2.2.2.2.2.2.2.2.1 10 none none ("tok") (some ("wrong"))
      c3Store c3Link ("uploads/abc") ("report.pdf") rfl rfl,
    c3_expiry_dominance_amended.2.2.2.2.2.2.2.2.2.2.1 10 ("") (fun _ => true) none none
      ("CODE1234") none c3FileStore c3File ("uploads/abc") ("report.pdf") rfl rfl,
    c3_expiry_dominance_amended.2.2.2.2.2.2.2.2.2.2.2 10 ("") (fun _ => true) none none
      ("tok") none c3Store c3Link ("uploads/abc") ("report.pdf") rfl rfl⟩

/-- C4 counterexample: POST /api/download/link/:token increments the file
counter without re-checking the file download limit, pushing downloadCount
past downloadLimit: with the file already at its limit (1 of 1), the link
download is served and the file counter becomes 2. -/
theorem c4_counterexample :
    c4File.downloadLimit = some 1 ∧ c4File.downloadCount = 1 ∧
    (downloadLink 0 none none ("tok") none c4Store).1
      = Resp.serve ("uploads/abc") ("report.pdf") ∧
    (getFile (downloadLink 0 none none ("tok") none c4Store).2 1).map File.downloadCount
      = some 2 := by
  exact ⟨rfl, rfl, rfl, rfl⟩

/-- C4 (amended): downloadCount stays non-negative, and a granting operation
never pushes a counter past a positive limit that the route actually checks:
the code and public download routes preserve the file counter invariant, and
the link download routes preserve the link counter invariant.  However, a
limit of exactly 0 is treated as no limit (the guard tests truthiness), and
POST /api/download/link/:token also increments the underlying file counter
without consulting the file limit (only non-negativity is preserved there),
as the recorded counterexample shows. -/
theorem c4_counter_invariant_amended :
    (∀ (now : Int) (ip ua : Option String) (sc : String) (st : Store),
      FilesIdUnique st → StoreFileInv st →
      StoreFileInv (downloadByCode now ip ua sc st).2) ∧
    (∀ (now : Int) (cwd : String) (disk : String → Bool) (ip ua : Option String)
      (sc : String) (pw : Option String) (st : Store),
      FilesIdUnique st → StoreFileInv st →
      StoreFileInv (publicDownload now cwd disk ip ua sc pw st).2) ∧
    (∀ (now : Int) (ip ua : Option String) (tok : String) (pw : Option String) (st : Store),
      LinksIdUnique st → StoreLinkInv st →
      StoreLinkInv (downloadLink now ip ua tok pw st).2) ∧
    (∀ (now : Int) (ip ua : Option String) (tok : String) (pw : Option String) (st : Store),
      (∀ f ∈ st.files, 0 ≤ f.downloadCount) →
      ∀ f ∈ (downloadLink now ip ua tok pw st).2.files, 0 ≤ f.downloadCount) ∧
    (∀ (now : Int) (cwd : String) (disk : String → Bool) (ip ua : Option String)
      (tok : String) (pw : Option String) (st : Store),
      LinksIdUnique st → StoreLinkInv st →
      StoreLinkInv (downloadShared now cwd disk ip ua tok pw st).2) := by
  refine ⟨?_, ?_, ?_, ?_, ?_⟩
  · intro now ip ua sc st huniq hinv
    unfold downloadByCode
    rcases hres : getFileByShareCode st sc with _ | f
    · exact hinv
    · have hmem : f ∈ st.files := List.mem_of_find?_eq_some hres
      by_cases h1 : expiredChk f.expiresAt now = true
      · simp [h1]
        exact hinv
      · rw [Bool.not_eq_true] at h1
        by_cases h2 : limitReachedChk f.downloadLimit f.downloadCount = true
        · simp [h1, h2]
          exact hinv
        · rw [Bool.not_eq_true] at h2
          simp [h1, h2]
          exact storeFileInv_dbUpdateFile_inc (dbCreateDownloadLog st
            { fileId := f.id, sharedLinkId := none, downloadMethod := "code",
              downloaderIp := ip, downloaderUserAgent := ua }) f hmem huniq hinv h2
  · intro now cwd disk ip ua sc pw st huniq hinv
    unfold publicDownload
    rcases hres : getFileByShareCode st sc with _ | f
    · exact hinv
    · have hmem : f ∈ st.files := List.mem_of_find?_eq_some hres
      by_cases hp1 : (!f.isPublic) = true
      · simp [hp1]
        exact hinv
      · by_cases hp2 : (f.isLocked && !strTruthy pw) = true
        · simp [hp1, hp2]
          exact hinv
        · by_cases hp3 : (f.isLocked && !dbValidatePassword pw (f.shareCode.getD (""))) = true
          · simp [hp1, hp2, hp3]
            exact hinv
          · by_cases h1 : expiredChk f.expiresAt now = true
            · simp [hp1, hp2, hp3, h1]
              exact hinv
            · rw [Bool.not_eq_true] at h1
              by_cases h2 : limitReachedChk f.downloadLimit f.downloadCount = true
              · simp [hp1, hp2, hp3, h1, h2]
                exact hinv
              · rw [Bool.not_eq_true] at h2
                by_cases hdk : (!disk (pathJoin cwd f.storagePath)) = true
                · simp [hp1, hp2, hp3, h1, h2, hdk]
                  exact hinv
                · simp [hp1, hp2, hp3, h1, h2, hdk]
                  exact storeFileInv_dbUpdateFile_inc st f hmem huniq hinv h2
  · intro now ip ua tok pw st huniq hinv
    unfold downloadLink
    rcases hres : getSharedLink st tok with _ | l
    · exact hinv
    · have hmem : l ∈ st.links := List.mem_of_find?_eq_some hres
      by_cases ha : (!l.isActive) = true
      · simp [ha]
        exact hinv
      · by_cases hpw : (strTruthy l.passwordHash &&
            !dbValidatePassword pw (l.passwordHash.getD (""))) = true
        · simp [ha, hpw]
          exact hinv
        · by_cases h1 : expiredChk l.expiresAt now = true
          · simp [ha, hpw, h1]
            exact hinv
          · rw [Bool.not_eq_true] at h1
            by_cases h2 : limitReachedChk l.downloadLimit l.downloadCount = true
            · simp [ha, hpw, h1, h2]
              exact hinv
            · rw [Bool.not_eq_true] at h2
              rcases hf : getFile st l.fileId with _ | f
              · simp [ha, hpw, h1, h2, hf]
                exact hinv
              · simp [ha, hpw, h1, h2, hf]
                exact storeLinkInv_dbUpdateSharedLink_inc (dbCreateDownloadLog st
                  { fileId := f.id, sharedLinkId := some l.id, downloadMethod := "link",
                    downloaderIp := ip, downloaderUserAgent := ua }) l hmem huniq hinv h2
  · intro now ip ua tok pw st hinv
    unfold downloadLink
    rcases hres : getSharedLink st tok with _ | l
    · exact hinv
    · by_cases ha : (!l.isActive) = true
      · simp [ha]
        exact hinv
      · by_cases hpw : (strTruthy l.passwordHash &&
            !dbValidatePassword pw (l.passwordHash.getD (""))) = true
        · simp [ha, hpw]
          exact hinv
        · by_cases h1 : expiredChk l.expiresAt now = true
          · simp [ha, hpw, h1]
            exact hinv
          · rw [Bool.not_eq_true] at h1
            by_cases h2 : limitReachedChk l.downloadLimit l.downloadCount = true
            · simp [ha, hpw, h1, h2]
              exact hinv
            · rw [Bool.not_eq_true] at h2
              rcases hf : getFile st l.fileId with _ | f
              · simp [ha, hpw, h1, h2, hf]
                exact hinv
              · simp [ha, hpw, h1, h2, hf]
                intro g hg
                rcases List.mem_map.mp hg with ⟨g0, hg0, rfl⟩
                have hfmem : f ∈ st.files := List.mem_of_find?_eq_some hf
                by_cases hid : g0.id = f.id
                · simp only [hid, if_pos]
                  simp [applyFileUpdate]
                  have := hinv f hfmem
                  omega
                · simp only [hid, if_neg, ite_false]
                  exact hinv g0 hg0
  · intro now cwd disk ip ua tok pw st huniq hinv
    unfold downloadShared
    rcases hres : getSharedLink st tok with _ | l
    · exact hinv
    · have hmem : l ∈ st.links := List.mem_of_find?_eq_some hres
      by_cases ha : (!l.isActive) = true
      · simp [ha]
        exact hinv
      · by_cases h1 : expiredChk l.expiresAt now = true
        · simp [ha, h1]
          exact hinv
        · rw [Bool.not_eq_true] at h1
          by_cases h2 : limitReachedChk l.downloadLimit l.downloadCount = true
          · simp [ha, h1, h2]
            exact hinv
          · rw [Bool.not_eq_true] at h2
            by_cases hq1 : (strTruthy l.passwordHash && !strTruthy pw) = true
            · simp [ha, h1, h2, hq1]
              exact hinv
            · by_cases hq2 : (strTruthy l.passwordHash &&
                  !dbValidateFilePassword pw (l.passwordHash.getD (""))) = true
              · simp [ha, h1, h2, hq1, hq2]
                exact hinv
              · rcases hf : getFile st l.fileId with _ | f
                · simp [ha, h1, h2, hq1, hq2, hf]
                  exact hinv
                · by_cases hdk : (!disk (pathJoin cwd f.storagePath)) = true
                  · simp [ha, h1, h2, hq1, hq2, hf, hdk]
                    exact hinv
                  · simp [ha, h1, h2, hq1, hq2, hf, hdk]
                    exact storeLinkInv_dbUpdateSharedLink_inc st l hmem huniq hinv h2

theorem dbUpdateFile_count_eq (st : Store) (fid : Nat) (n : Int) :
    ∀ g ∈ (dbUpdateFile st fid { downloadCount := some n }).files, g.id = fid →
      g.downloadCount = n := by
  intro g hg hgid
  rcases List.mem_map.mp hg with ⟨g0, hg0, rfl⟩
  by_cases hid : g0.id = fid
  · simp only [if_pos hid]
    simp [applyFileUpdate]
  · simp only [if_neg hid] at hgid
    exact absurd hgid hid

theorem dbUpdateSharedLink_count_eq (st : Store) (lid : Nat) (n : Int) :
    ∀ m ∈ (dbUpdateSharedLink st lid { downloadCount := some n }).links, m.id = lid →
      m.downloadCount = n := by
  intro m hm hmid
  rcases List.mem_map.mp hm with ⟨m0, hm0, rfl⟩
  by_cases hid : m0.id = lid
  · simp only [if_pos hid]
    simp [applyLinkUpdate]
  · simp only [if_neg hid] at hmid
    exact absurd hmid hid

/-- Witness for the amended C4, applying every preservation statement to the
concrete store with one public unrestricted file and one limit-1 link. -/
theorem c4_witness :
    StoreFileInv (downloadByCode 0 none none ("CODE1234") c2Store).2 ∧
    StoreFileInv (publicDownload 0 ("") (fun _ => true) none none ("CODE1234") none c2Store).2 ∧
    StoreLinkInv (downloadLink 0 none none ("tok") none c2Store).2 ∧
    (∀ f ∈ (downloadLink 0 none none ("tok") none c2Store).2.files, 0 ≤ f.downloadCount) ∧
    StoreLinkInv (downloadShared 0 ("") (fun _ => true) none none ("tok") none c2Store).2 := by
  have hfu : FilesIdUnique c2Store := by
    intro f hf g hg _
    simp [c2Store] at hf hg
    rw [hf, hg]
  have hfi : StoreFileInv c2Store := by
    intro f hf
    simp only [c2Store, List.mem_singleton] at hf
    subst hf
    refine ⟨by decide, ?_⟩
    intro l hl _
    simp [egFile] at hl
  have hlu : LinksIdUnique c2Store := by
    intro l hl m hm _
    simp [c2Store] at hl hm
    rw [hl, hm]
  have hli : StoreLinkInv c2Store := by
    intro l hl
    simp only [c2Store, List.mem_singleton] at hl
    subst hl
    refine ⟨by decide, ?_⟩
    intro v hv _
    simp [c2Link] at hv ⊢
    omega
  have hnn : ∀ f ∈ c2Store.files, 0 ≤ f.downloadCount := by
    intro f hf
    simp only [c2Store, List.mem_singleton] at hf
    subst hf
    decide
  exact ⟨c4_counter_invariant_amended.1 0 none none ("CODE1234") c2Store hfu hfi,
    c4_counter_invariant_amended.2.1 0 ("") (fun _ => true) none none ("CODE1234") none
      c2Store hfu hfi,
    c4_counter_invariant_amended.2.2.1 0 none none ("tok") none c2Store hlu hli,
    c4_counter_invariant_amended.2.2.2.1 0 none none ("tok") none c2Store hnn,
    c4_counter_invariant_amended.2.2.2.2 0 ("") (fun _ => true) none none ("tok") none
      c2Store hlu hli⟩

/-- C5 counterexample: running a granted code download through its audit-log
write and stopping before the counter write (a crash between the two
separate, non-transactional storage writes) leaves one audit entry against a
download counter still at 0. -/
theorem c5_counterexample :
    auditCount (runCodeSteps 0 none none ("CODE1234") 2 (c5Store, CodeReqPhase.start)).1 1 = 1 ∧
    (getFile (runCodeSteps 0 none none ("CODE1234") 2 (c5Store, CodeReqPhase.start)).1 1).map
      File.downloadCount = some 0 := by
  exact ⟨rfl, rfl⟩

/-- C5 (amended): a completed granted download appends exactly one audit
entry for the file and moves the counters it writes by exactly one, on each
of the four content-serving routes: audit log before the increment on the
code and link download routes, increment before the audit log on the public
and shared download routes, the link route incrementing both the link and the
file counter and the shared route incrementing only the link counter.  But
the writes are separate operations, not one transaction, so a failure
between them (as in the recorded counterexample) leaves audit history and
counter state diverged. -/
theorem c5_audit_once_per_grant :
    (∀ (now : Int) (ip ua : Option String) (sc : String) (st : Store) (f : File),
      getFileByShareCode st sc = some f →
      expiredChk f.expiresAt now = false →
      limitReachedChk f.downloadLimit f.downloadCount = false →
      (downloadByCode now ip ua sc st).1 = Resp.serve f.storagePath f.originalName ∧
      auditCount (downloadByCode now ip ua sc st).2 f.id = auditCount st f.id + 1 ∧
      ∀ g ∈ (downloadByCode now ip ua sc st).2.files, g.id = f.id →
        g.downloadCount = f.downloadCount + 1) ∧
    (∀ (now : Int) (ip ua : Option String) (tok : String) (pw : Option String)
      (st : Store) (l : SharedLink) (f : File),
      getSharedLink st tok = some l → l.isActive = true →
      (strTruthy l.passwordHash &&
        !dbValidatePassword pw (l.passwordHash.getD (""))) = false →
      expiredChk l.expiresAt now = false →
      limitReachedChk l.downloadLimit l.downloadCount = false →
      getFile st l.fileId = some f →
      (downloadLink now ip ua tok pw st).1 = Resp.serve f.storagePath f.originalName ∧
      auditCount (downloadLink now ip ua tok pw st).2 f.id = auditCount st f.id + 1 ∧
      (∀ m ∈ (downloadLink now ip ua tok pw st).2.links, m.id = l.id →
        m.downloadCount = l.downloadCount + 1) ∧
      ∀ g ∈ (downloadLink now ip ua tok pw st).2.files, g.id = f.id →
        g.downloadCount = f.downloadCount + 1) ∧
    (∀ (now : Int) (cwd : String) (disk : String → Bool) (ip ua : Option String)
      (sc : String) (pw : Option String) (st : Store) (f : File),
      getFileByShareCode st sc = some f → f.isPublic = true →
      (f.isLocked && !strTruthy pw) = false →
      (f.isLocked && !dbValidatePassword pw (f.shareCode.getD (""))) = false →
      expiredChk f.expiresAt now = false →
      limitReachedChk f.downloadLimit f.downloadCount = false →
      disk (pathJoin cwd f.storagePath) = true →
      (publicDownload now cwd disk ip ua sc pw st).1
        = Resp.serve f.storagePath f.originalName ∧
      auditCount (publicDownload now cwd disk ip ua sc pw st).2 f.id
        = auditCount st f.id + 1 ∧
      ∀ g ∈ (publicDownload now cwd disk ip ua sc pw st).2.files, g.id = f.id →
        g.downloadCount = f.downloadCount + 1) ∧
    (∀ (now : Int) (cwd : String) (disk : String → Bool) (ip ua : Option String)
      (tok : String) (pw : Option String) (st : Store) (l : SharedLink) (f : File),
      getSharedLink st tok = some l → l.isActive = true →
      expiredChk l.expiresAt now = false →
      limitReachedChk l.downloadLimit l.downloadCount = false →
      (strTruthy l.passwordHash && !strTruthy pw) = false →
      (strTruthy l.passwordHash &&
        !dbValidateFilePassword pw (l.passwordHash.getD (""))) = false →
      getFile st l.fileId = some f →
      disk (pathJoin cwd f.storagePath) = true →
      (downloadShared now cwd disk ip ua tok pw st).1
        = Resp.serve f.storagePath f.originalName ∧
      auditCount (downloadShared now cwd disk ip ua tok pw st).2 f.id
        = auditCount st f.id + 1 ∧
      ∀ m ∈ (downloadShared now cwd disk ip ua tok pw st).2.links, m.id = l.id →
        m.downloadCount = l.downloadCount + 1) := by
  refine ⟨?_, ?_, ?_, ?_⟩
  · intro now ip ua sc st f hget hexp hlim
    have hl1 : downloadByCode now ip ua sc st
        = (Resp.serve f.storagePath f.originalName,
           dbUpdateFile (dbCreateDownloadLog st
             { fileId := f.id, sharedLinkId := none, downloadMethod := "code",
               downloaderIp := ip, downloaderUserAgent := ua }) f.id
             { downloadCount := some (f.downloadCount + 1) }) := by
      unfold downloadByCode
      rw [hget]
      simp [hexp, hlim]
    rw [hl1]
    refine ⟨rfl, ?_, ?_⟩
    · simp [auditCount, dbUpdateFile, dbCreateDownloadLog, List.filter_append]
    · exact dbUpdateFile_count_eq _ f.id (f.downloadCount + 1)
  · intro now ip ua tok pw st l f hget hact hpw hexp hlim hfile
    have hstep : downloadLink now ip ua tok pw st
        = (Resp.serve f.storagePath f.originalName,
           dbUpdateFile (dbUpdateSharedLink (dbCreateDownloadLog st
               { fileId := f.id, sharedLinkId := some l.id, downloadMethod := "link",
                 downloaderIp := ip, downloaderUserAgent := ua }) l.id
               { downloadCount := some (l.downloadCount + 1) }) f.id
             { downloadCount := some (f.downloadCount + 1) }) := by
      unfold downloadLink
      rw [hget]
      simp [hact, hpw, hexp, hlim, hfile]
    rw [hstep]
    refine ⟨rfl, ?_, ?_, ?_⟩
    · simp [auditCount, dbUpdateFile, dbUpdateSharedLink, dbCreateDownloadLog,
        List.filter_append]
    · exact dbUpdateSharedLink_count_eq _ l.id (l.downloadCount + 1)
    · exact dbUpdateFile_count_eq _ f.id (f.downloadCount + 1)
  · intro now cwd disk ip ua sc pw st f hget hpub hlock1 hlock2 hexp hlim hdisk
    have hstep : publicDownload now cwd disk ip ua sc pw st
        = (Resp.serve f.storagePath f.originalName,
           dbCreateDownloadLog (dbUpdateFile st f.id
               { downloadCount := some (f.downloadCount + 1) })
             { fileId := f.id, sharedLinkId := none, downloadMethod := "public_link",
               downloaderIp := ip, downloaderUserAgent := ua }) := by
      unfold publicDownload
      rw [hget]
      simp [hpub, hlock1, hlock2, hexp, hlim, hdisk]
    rw [hstep]
    refine ⟨rfl, ?_, ?_⟩
    · simp [auditCount, dbUpdateFile, dbCreateDownloadLog, List.filter_append]
    · exact dbUpdateFile_count_eq _ f.id (f.downloadCount + 1)
  · intro now cwd disk ip ua tok pw st l f hget hact hexp hlim hq1 hq2 hfile hdisk
    have hstep : downloadShared now cwd disk ip ua tok pw st
        = (Resp.serve f.storagePath f.originalName,
           dbCreateDownloadLog (dbUpdateSharedLink st l.id
               { downloadCount := some (l.downloadCount + 1) })
             { fileId := f.id, sharedLinkId := some l.id, downloadMethod := "shared_link",
               downloaderIp := ip, downloaderUserAgent := ua }) := by
      unfold downloadShared
      rw [hget]
      simp [hact, hexp, hlim, hq1, hq2, hfile, hdisk]
    rw [hstep]
    refine ⟨rfl, ?_, ?_⟩
    · simp [auditCount, dbUpdateSharedLink, dbCreateDownloadLog, List.filter_append]
    · exact dbUpdateSharedLink_count_eq _ l.id (l.downloadCount + 1)

/-- Witness for the amended C5, one granted download on each of the four
serving routes at concrete stores. -/
theorem c5_witness :
    ((downloadByCode 0 none none ("CODE1234") c5Store).1
      = Resp.serve egFile.storagePath egFile.originalName ∧
     auditCount (downloadByCode 0 none none ("CODE1234") c5Store).2 egFile.id
      = auditCount c5Store egFile.id + 1 ∧
     ∀ g ∈ (downloadByCode 0 none none ("CODE1234") c5Store).2.files,
       g.id = egFile.id → g.downloadCount = egFile.downloadCount + 1) ∧
    ((downloadLink 0 none none ("tok") none c2Store).1
      = Resp.serve egFile.storagePath egFile.originalName ∧
     auditCount (downloadLink 0 none none ("tok") none c2Store).2 egFile.id
      = auditCount c2Store egFile.id + 1 ∧
     (∀ m ∈ (downloadLink 0 none none ("tok") none c2Store).2.links,
       m.id = c2Link.id → m.downloadCount = c2Link.downloadCount + 1) ∧
     ∀ g ∈ (downloadLink 0 none none ("tok") none c2Store).2.files,
       g.id = egFile.id → g.downloadCount = egFile.downloadCount + 1) ∧
    ((publicDownload 0 ("") (fun _ => true) none none ("CODE1234") none c5Store).1
      = Resp.serve egFile.storagePath egFile.originalName ∧
     auditCount (publicDownload 0 ("") (fun _ => true) none none ("CODE1234") none
       c5Store).2 egFile.id = auditCount c5Store egFile.id + 1 ∧
     ∀ g ∈ (publicDownload 0 ("") (fun _ => true) none none ("CODE1234") none
       c5Store).2.files, g.id = egFile.id → g.downloadCount = egFile.downloadCount + 1) ∧
    ((downloadShared 0 ("") (fun _ => true) none none ("tok") none c2Store).1
      = Resp.serve egFile.storagePath egFile.originalName ∧
     auditCount (downloadShared 0 ("") (fun _ => true) none none ("tok") none
       c2Store).2 egFile.id = auditCount c2Store egFile.id + 1 ∧
     ∀ m ∈ (downloadShared 0 ("") (fun _ => true) none none ("tok") none
       c2Store).2.links, m.id = c2Link.id → m.downloadCount = c2Link.downloadCount + 1) :=
  ⟨c5_audit_once_per_grant.1 0 none none ("CODE1234") c5Store egFile rfl rfl rfl,
   c5_audit_once_per_grant.2.1 0 none none ("tok") none c2Store c2Link egFile
     rfl rfl rfl rfl rfl rfl,
   c5_audit_once_per_grant.2.2.1 0 ("") (fun _ => true) none none ("CODE1234") none
     c5Store egFile rfl rfl rfl rfl rfl rfl rfl,
   c5_audit_once_per_grant.2.2.2 0 ("") (fun _ => true) none none ("tok") none
     c2Store c2Link egFile rfl rfl rfl rfl rfl rfl rfl rfl⟩

/-- C9: a downloadLimit of 0 is falsy, so the limit guard never denies: on
each download route a target with limit 0 is served, and counted, whatever
the current counter value, rather than all downloads being denied. -/
theorem c9_zero_limit_means_unlimited :
    (∀ (now : Int) (ip ua : Option String) (sc : String) (st : Store) (f : File),
      getFileByShareCode st sc = some f → f.downloadLimit = some 0 →
      expiredChk f.expiresAt now = false →
      (downloadByCode now ip ua sc st).1 = Resp.serve f.storagePath f.originalName ∧
      ∀ g ∈ (downloadByCode now ip ua sc st).2.files, g.id = f.id →
        g.downloadCount = f.downloadCount + 1) ∧
    (∀ (now : Int) (ip ua : Option String) (tok : String) (st : Store)
      (l : SharedLink) (f : File),
      getSharedLink st tok = some l → l.isActive = true →
      strTruthy l.passwordHash = false → expiredChk l.expiresAt now = false →
      l.downloadLimit = some 0 → getFile st l.fileId = some f →
      (downloadLink now ip ua tok none st).1 = Resp.serve f.storagePath f.originalName ∧
      ∀ m ∈ (downloadLink now ip ua tok none st).2.links, m.id = l.id →
        m.downloadCount = l.downloadCount + 1) ∧
    (∀ (now : Int) (cwd : String) (disk : String → Bool) (ip ua : Option String)
      (tok : String) (st : Store) (l : SharedLink) (f : File),
      getSharedLink st tok = some l → l.isActive = true →
      strTruthy l.passwordHash = false → expiredChk l.expiresAt now = false →
      l.downloadLimit = some 0 → getFile st l.fileId = some f →
      disk (pathJoin cwd f.storagePath) = true →
      (downloadShared now cwd disk ip ua tok none st).1
        = Resp.serve f.storagePath f.originalName ∧
      ∀ m ∈ (downloadShared now cwd disk ip ua tok none st).2.links, m.id = l.id →
        m.downloadCount = l.downloadCount + 1) := by
  refine ⟨?_, ?_, ?_⟩
  · intro now ip ua sc st f hget hlim hexp
    have hl : limitReachedChk f.downloadLimit f.downloadCount = false := by
      rw [hlim]
      simp [limitReachedChk]
    have hl1 : downloadByCode now ip ua sc st
        = (Resp.serve f.storagePath f.originalName,
           dbUpdateFile (dbCreateDownloadLog st
             { fileId := f.id, sharedLinkId := none, downloadMethod := "code",
               downloaderIp := ip, downloaderUserAgent := ua }) f.id
             { downloadCount := some (f.downloadCount + 1) }) := by
      unfold downloadByCode
      rw [hget]
      simp [hexp, hl]
    rw [hl1]
    exact ⟨rfl, dbUpdateFile_count_eq _ f.id (f.downloadCount + 1)⟩
  · intro now ip ua tok st l f hget hact hpw hexp hlim hfile
    have hl : limitReachedChk l.downloadLimit l.downloadCount = false := by
      rw [hlim]
      simp [limitReachedChk]
    have hstep : downloadLink now ip ua tok none st
        = (Resp.serve f.storagePath f.originalName,
           dbUpdateFile (dbUpdateSharedLink (dbCreateDownloadLog st
               { fileId := f.id, sharedLinkId := some l.id, downloadMethod := "link",
                 downloaderIp := ip, downloaderUserAgent := ua }) l.id
               { downloadCount := some (l.downloadCount + 1) }) f.id
             { downloadCount := some (f.downloadCount + 1) }) := by
      unfold downloadLink
      rw [hget]
      simp [hact, hpw, hexp, hl, hfile]
    rw [hstep]
    exact ⟨rfl, dbUpdateSharedLink_count_eq _ l.id (l.downloadCount + 1)⟩
  · intro now cwd disk ip ua tok st l f hget hact hpw hexp hlim hfile hdisk
    have hl : limitReachedChk l.downloadLimit l.downloadCount = false := by
      rw [hlim]
      simp [limitReachedChk]
    have hstep : downloadShared now cwd disk ip ua tok none st
        = (Resp.serve f.storagePath f.originalName,
           dbCreateDownloadLog (dbUpdateSharedLink st l.id
               { downloadCount := some (l.downloadCount + 1) })
             { fileId := f.id, sharedLinkId := some l.id, downloadMethod := "shared_link",
               downloaderIp := ip, downloaderUserAgent := ua }) := by
      unfold downloadShared
      rw [hget]
      simp [hact, hpw, hexp, hl, hfile, hdisk]
    rw [hstep]
    exact ⟨rfl, dbUpdateSharedLink_count_eq _ l.id (l.downloadCount + 1)⟩

/-- Witness for C9 at concrete zero-limit targets with running counters. -/
theorem c9_witness :
    ((downloadByCode 0 none none ("CODE1234") c9Store).1
      = Resp.serve c9File.storagePath c9File.originalName ∧
     ∀ g ∈ (downloadByCode 0 none none ("CODE1234") c9Store).2.files, g.id = c9File.id →
       g.downloadCount = c9File.downloadCount + 1) ∧
    ((downloadLink 0 none none ("tok") none c9Store).1
      = Resp.serve c9File.storagePath c9File.originalName ∧
     ∀ m ∈ (downloadLink 0 none none ("tok") none c9Store).2.links, m.id = c9Link.id →
       m.downloadCount = c9Link.downloadCount + 1) ∧
    ((downloadShared 0 ("") (fun _ => true) none none ("tok") none c9Store).1
      = Resp.serve c9File.storagePath c9File.originalName ∧
     ∀ m ∈ (downloadShared 0 ("") (fun _ => true) none none ("tok") none c9Store).2.links,
       m.id = c9Link.id → m.downloadCount = c9Link.downloadCount + 1) :=
  ⟨c9_zero_limit_means_unlimited.1 0 none none ("CODE1234") c9Store c9File rfl rfl rfl,
   c9_zero_limit_means_unlimited.2.1 0 none none ("tok") c9Store c9Link c9File
     rfl rfl rfl rfl rfl rfl,
   c9_zero_limit_means_unlimited.2.2 0 ("") (fun _ => true) none none ("tok") c9Store
     c9Link c9File rfl rfl rfl rfl rfl rfl rfl⟩

theorem aget_aerase {α β : Type} [DecidableEq α] (m : List (α × β)) (k k' : α) :
    aget (aerase m k) k' = if k' = k then none else aget m k' := by
  induction m with
  | nil =>
    by_cases h : k' = k <;> simp [aerase, aget, h]
  | cons p rest ih =>
    by_cases hpk : p.1 = k
    · have he : aerase (p :: rest) k = aerase rest k := by
        simp [aerase, hpk]
      rw [he, ih]
      by_cases h : k' = k
      · simp [h]
      · have hp : ¬ p.1 = k' := by
          rw [hpk]
          exact fun hh => h hh.symm
        simp [h, aget, hp]
    · have he : aerase (p :: rest) k = p :: aerase rest k := by
        simp [aerase, hpk]
      rw [he]
      show (if p.1 = k' then some p.2 else aget (aerase rest k) k') = _
      by_cases hpk' : p.1 = k'
      · have hk : ¬ k' = k := by
          rw [← hpk']
          exact hpk
        simp [aget, hpk', hk]
      · simp [aget, hpk', ih]

theorem aget_aset {α β : Type} [DecidableEq α] (m : List (α × β)) (k : α) (v : β) (k' : α) :
    aget (aset m k v) k' = if k' = k then some v else aget m k' := by
  by_cases h : k' = k
  · simp [aset, aget, h]
  · have h2 : ¬ k = k' := fun hh => h hh.symm
    simp [aset, aget, h2, h, aget_aerase]

theorem strTruthy_eq_true_iff (o : Option String) :
    strTruthy o = true ↔ ∃ s, o = some s ∧ ¬ s = "" := by
  cases o <;> simp [strTruthy]

theorem jsShareCodeNe_eq_false_iff (u : Option (Option String)) (e : Option String) :
    jsShareCodeNe u e = false ↔ u = some e := by
  cases u <;> simp [jsShareCodeNe]

theorem memCreateFile_files (st : MemState) (ins : InsertFile) :
    (memCreateFile st ins).1.files = aset st.files st.nextId (insertToFile st.nextId ins) := rfl

theorem memCreateFile_codeIdx (st : MemState) (ins : InsertFile) :
    (memCreateFile st ins).1.codeIdx
      = if strTruthy ins.shareCode then aset st.codeIdx (ins.shareCode.getD ("")) st.nextId
        else st.codeIdx := rfl

theorem memCreateFile_nextId (st : MemState) (ins : InsertFile) :
    (memCreateFile st ins).1.nextId = st.nextId + 1 := rfl

theorem memUpdateFile_fst_none (st : MemState) (id : Nat) (u : FileUpdate)
    (h : aget st.files id = none) : (memUpdateFile st id u).1 = st := by
  unfold memUpdateFile
  rw [h]

theorem memUpdateFile_files (st : MemState) (id : Nat) (u : FileUpdate) (e : File)
    (h : aget st.files id = some e) :
    (memUpdateFile st id u).1.files = aset st.files id (applyFileUpdate e u) := by
  unfold memUpdateFile
  rw [h]

theorem memUpdateFile_codeIdx (st : MemState) (id : Nat) (u : FileUpdate) (e : File)
    (h : aget st.files id = some e) :
    (memUpdateFile st id u).1.codeIdx
      = (if strTruthy (applyFileUpdate e u).shareCode then
          aset (if strTruthy e.shareCode && jsShareCodeNe u.shareCode e.shareCode then
              aerase st.codeIdx (e.shareCode.getD ("")) else st.codeIdx)
            ((applyFileUpdate e u).shareCode.getD ("")) id
        else (if strTruthy e.shareCode && jsShareCodeNe u.shareCode e.shareCode then
              aerase st.codeIdx (e.shareCode.getD ("")) else st.codeIdx)) := by
  unfold memUpdateFile
  rw [h]

theorem memUpdateFile_nextId (st : MemState) (id : Nat) (u : FileUpdate) :
    (memUpdateFile st id u).1.nextId = st.nextId := by
  unfold memUpdateFile
  rcases hg : aget st.files id with _ | e
  · rfl
  · rfl

theorem memDeleteFile_fst_none (st : MemState) (id : Nat)
    (h : aget st.files id = none) : (memDeleteFile st id).1 = st := by
  unfold memDeleteFile
  rw [h]

theorem memDeleteFile_files (st : MemState) (id : Nat) (file : File)
    (h : aget st.files id = some file) :
    (memDeleteFile st id).1.files = aerase st.files id := by
  unfold memDeleteFile
  rw [h]

theorem memDeleteFile_codeIdx (st : MemState) (id : Nat) (file : File)
    (h : aget st.files id = some file) :
    (memDeleteFile st id).1.codeIdx
      = if strTruthy file.shareCode then aerase st.codeIdx (file.shareCode.getD (""))
        else st.codeIdx := by
  unfold memDeleteFile
  rw [h]

theorem memDeleteFile_nextId (st : MemState) (id : Nat) :
    (memDeleteFile st id).1.nextId = st.nextId := by
  unfold memDeleteFile
  rcases hg : aget st.files id with _ | f
  · rfl
  · rfl

theorem memInv_create (st : MemState) (ins : InsertFile) (h : MemInv st) :
    MemInv (memCreateFile st ins).1 := by
  obtain ⟨h1, h2⟩ := h
  constructor
  · intro id f hf
    rw [memCreateFile_files, aget_aset] at hf
    rw [memCreateFile_nextId]
    by_cases hid : id = st.nextId
    · omega
    · rw [if_neg hid] at hf
      exact Nat.lt_succ_of_lt (h1 id f hf)
  · intro c id hc
    rw [memCreateFile_codeIdx] at hc
    by_cases ht : strTruthy ins.shareCode = true
    · rw [if_pos ht, aget_aset] at hc
      obtain ⟨s, hs, hsne⟩ := (strTruthy_eq_true_iff _).mp ht
      by_cases hcs : c = ins.shareCode.getD ("")
      · rw [if_pos hcs] at hc
        have hid : id = st.nextId := by
          injection hc with hh
          exact hh.symm
        subst hid
        constructor
        · rw [hcs, hs]
          simpa using hsne
        · refine ⟨insertToFile st.nextId ins, ?_, ?_⟩
          · rw [memCreateFile_files, aget_aset, if_pos rfl]
          · show ins.shareCode = some c
            rw [hs, hcs, hs]
            simp
      · rw [if_neg hcs] at hc
        obtain ⟨hcne, f0, hf0, hf0c⟩ := h2 c id hc
        have hlt := h1 id f0 hf0
        refine ⟨hcne, f0, ?_, hf0c⟩
        rw [memCreateFile_files, aget_aset, if_neg (by omega)]
        exact hf0
    · rw [if_neg ht] at hc
      obtain ⟨hcne, f0, hf0, hf0c⟩ := h2 c id hc
      have hlt := h1 id f0 hf0
      refine ⟨hcne, f0, ?_, hf0c⟩
      rw [memCreateFile_files, aget_aset, if_neg (by omega)]
      exact hf0

theorem memInv_update (st : MemState) (id : Nat) (u : FileUpdate) (h : MemInv st) :
    MemInv (memUpdateFile st id u).1 := by
  obtain ⟨h1, h2⟩ := h
  rcases hget : aget st.files id with _ | e
  · rw [memUpdateFile_fst_none st id u hget]
    exact ⟨h1, h2⟩
  · constructor
    · intro i f hf
      rw [memUpdateFile_files st id u e hget, aget_aset] at hf
      rw [memUpdateFile_nextId]
      by_cases hid : i = id
      · subst hid
        exact h1 i e hget
      · rw [if_neg hid] at hf
        exact h1 i f hf
    · intro c j hc
      rw [memUpdateFile_codeIdx st id u e hget] at hc
      by_cases ht2 : strTruthy (applyFileUpdate e u).shareCode = true
      · rw [if_pos ht2, aget_aset] at hc
        obtain ⟨s2, hs2, hs2ne⟩ := (strTruthy_eq_true_iff _).mp ht2
        by_cases hck : c = (applyFileUpdate e u).shareCode.getD ("")
        · rw [if_pos hck] at hc
          have hj : id = j := Option.some.inj hc
          subst hj
          constructor
          · rw [hck, hs2]
            simpa using hs2ne
          · refine ⟨applyFileUpdate e u, ?_, ?_⟩
            · rw [memUpdateFile_files st id u e hget, aget_aset, if_pos rfl]
            · rw [hs2, hck, hs2]
              simp
        · rw [if_neg hck] at hc
          by_cases ht1 : (strTruthy e.shareCode && jsShareCodeNe u.shareCode e.shareCode) = true
          · rw [if_pos ht1, aget_aerase] at hc
            by_cases hce : c = e.shareCode.getD ("")
            · rw [if_pos hce] at hc
              exact absurd hc (by simp)
            · rw [if_neg hce] at hc
              obtain ⟨hcne, f0, hf0, hf0c⟩ := h2 c j hc
              by_cases hj : j = id
              · replace hj := hj.symm
                subst hj
                rw [hget] at hf0
                injection hf0 with hh
                exfalso
                apply hce
                have hesc : e.shareCode = some c := by
                  rw [hh]
                  exact hf0c
                rw [hesc]
                simp
              · refine ⟨hcne, f0, ?_, hf0c⟩
                rw [memUpdateFile_files st id u e hget, aget_aset, if_neg hj]
                exact hf0
          · rw [if_neg ht1] at hc
            obtain ⟨hcne, f0, hf0, hf0c⟩ := h2 c j hc
            by_cases hj : j = id
            · replace hj := hj.symm
              subst hj
              rw [hget] at hf0
              injection hf0 with hh
              exfalso
              have hesc : e.shareCode = some c := by
                rw [hh]
                exact hf0c
              have htr : strTruthy e.shareCode = true := by
                rw [hesc]
                simpa [strTruthy] using hcne
              have hne : jsShareCodeNe u.shareCode e.shareCode = false := by
                by_cases hb : jsShareCodeNe u.shareCode e.shareCode = true
                · exact absurd (by simp [htr, hb]) ht1
                · rw [Bool.not_eq_true] at hb
                  exact hb
              have husc : u.shareCode = some e.shareCode :=
                (jsShareCodeNe_eq_false_iff _ _).mp hne
              apply hck
              have hupd : (applyFileUpdate e u).shareCode = some c := by
                simp [applyFileUpdate, husc, hesc]
              rw [hupd]
              simp
            · refine ⟨hcne, f0, ?_, hf0c⟩
              rw [memUpdateFile_files st id u e hget, aget_aset, if_neg hj]
              exact hf0
      · rw [if_neg ht2] at hc
        by_cases ht1 : (strTruthy e.shareCode && jsShareCodeNe u.shareCode e.shareCode) = true
        · rw [if_pos ht1, aget_aerase] at hc
          by_cases hce : c = e.shareCode.getD ("")
          · rw [if_pos hce] at hc
            exact absurd hc (by simp)
          · rw [if_neg hce] at hc
            obtain ⟨hcne, f0, hf0, hf0c⟩ := h2 c j hc
            by_cases hj : j = id
            · replace hj := hj.symm
              subst hj
              rw [hget] at hf0
              injection hf0 with hh
              exfalso
              apply hce
              have hesc : e.shareCode = some c := by
                rw [hh]
                exact hf0c
              rw [hesc]
              simp
            · refine ⟨hcne, f0, ?_, hf0c⟩
              rw [memUpdateFile_files st id u e hget, aget_aset, if_neg hj]
              exact hf0
        · rw [if_neg ht1] at hc
          obtain ⟨hcne, f0, hf0, hf0c⟩ := h2 c j hc
          by_cases hj : j = id
          · replace hj := hj.symm
            subst hj
            rw [hget] at hf0
            injection hf0 with hh
            exfalso
            have hesc : e.shareCode = some c := by
              rw [hh]
              exact hf0c
            have htr : strTruthy e.shareCode = true := by
              rw [hesc]
              simpa [strTruthy] using hcne
            have hne : jsShareCodeNe u.shareCode e.shareCode = false := by
              by_cases hb : jsShareCodeNe u.shareCode e.shareCode = true
              · exact absurd (by simp [htr, hb]) ht1
              · rw [Bool.not_eq_true] at hb
                exact hb
            have husc : u.shareCode = some e.shareCode :=
              (jsShareCodeNe_eq_false_iff _ _).mp hne
            apply ht2
            have hupd : (applyFileUpdate e u).shareCode = some c := by
              simp [applyFileUpdate, husc, hesc]
            rw [hupd]
            simpa [strTruthy] using hcne
          · refine ⟨hcne, f0, ?_, hf0c⟩
            rw [memUpdateFile_files st id u e hget, aget_aset, if_neg hj]
            exact hf0

theorem memInv_delete (st : MemState) (id : Nat) (h : MemInv st) :
    MemInv (memDeleteFile st id).1 := by
  obtain ⟨h1, h2⟩ := h
  rcases hget : aget st.files id with _ | file
  · rw [memDeleteFile_fst_none st id hget]
    exact ⟨h1, h2⟩
  · constructor
    · intro i f hf
      rw [memDeleteFile_files st id file hget, aget_aerase] at hf
      rw [memDeleteFile_nextId]
      by_cases hi : i = id
      · rw [if_pos hi] at hf
        exact absurd hf (by simp)
      · rw [if_neg hi] at hf
        exact h1 i f hf
    · intro c j hc
      rw [memDeleteFile_codeIdx st id file hget] at hc
      by_cases ht : strTruthy file.shareCode = true
      · rw [if_pos ht, aget_aerase] at hc
        by_cases hck : c = file.shareCode.getD ("")
        · rw [if_pos hck] at hc
          exact absurd hc (by simp)
        · rw [if_neg hck] at hc
          obtain ⟨hcne, f0, hf0, hf0c⟩ := h2 c j hc
          by_cases hj : j = id
          · replace hj := hj.symm
            subst hj
            rw [hget] at hf0
            injection hf0 with hh
            exfalso
            apply hck
            have hesc : file.shareCode = some c := by
              rw [hh]
              exact hf0c
            rw [hesc]
            simp
          · refine ⟨hcne, f0, ?_, hf0c⟩
            rw [memDeleteFile_files st id file hget, aget_aerase, if_neg hj]
            exact hf0
      · rw [if_neg ht] at hc
        obtain ⟨hcne, f0, hf0, hf0c⟩ := h2 c j hc
        by_cases hj : j = id
        · replace hj := hj.symm
          subst hj
          rw [hget] at hf0
          injection hf0 with hh
          exfalso
          have hesc : file.shareCode = some c := by
            rw [hh]
            exact hf0c
          apply ht
          rw [hesc]
          simpa [strTruthy] using hcne
        · refine ⟨hcne, f0, ?_, hf0c⟩
          rw [memDeleteFile_files st id file hget, aget_aerase, if_neg hj]
          exact hf0

theorem memInit_inv : MemInv memInit := by
  constructor
  · intro id f hf
    simp [memInit, aget] at hf
  · intro c id hc
    simp [memInit, aget] at hc

theorem memRun_inv (ops : List MemOp) : MemInv (memRun ops) := by
  suffices h : ∀ (l : List MemOp) (st : MemState), MemInv st → MemInv (l.foldl memApply st) by
    exact h ops memInit memInit_inv
  intro l
  induction l with
  | nil =>
    intro st h
    exact h
  | cons op rest ih =>
    intro st h
    apply ih
    cases op with
    | create ins => exact memInv_create st ins h
    | update id u => exact memInv_update st id u h
    | delete id => exact memInv_delete st id h

theorem memLookup_sound (st : MemState) (h : MemInv st) (c : String) (f : File)
    (hl : memGetFileByShareCode st c = some f) :
    (∃ id, aget st.files id = some f) ∧ f.shareCode = some c := by
  unfold memGetFileByShareCode at hl
  rcases hg : aget st.codeIdx c with _ | id
  · rw [hg] at hl
    have hl2 : (none : Option File) = some f := hl
    exact absurd hl2 (by simp)
  · rw [hg] at hl
    have hl2 : aget st.files id = some f := hl
    obtain ⟨hcne, f0, hf0, hf0c⟩ := h.2 c id hg
    rw [hf0] at hl2
    have hf0f : f0 = f := Option.some.inj hl2
    subst hf0f
    exact ⟨⟨id, hf0⟩, hf0c⟩

theorem memDelete_clears_code (st : MemState) (h : MemInv st) (id : Nat) (f : File)
    (c : String) (hf : aget st.files id = some f) (hc : f.shareCode = some c) :
    memGetFileByShareCode (memDeleteFile st id).1 c = none := by
  unfold memGetFileByShareCode
  rw [memDeleteFile_codeIdx st id f hf]
  by_cases ht : strTruthy f.shareCode = true
  · have hck : c = f.shareCode.getD ("") := by
      rw [hc]
      rfl
    rw [if_pos ht, aget_aerase, if_pos hck]
  · rw [if_neg ht]
    have hc0 : c = "" := by
      rw [hc] at ht
      simpa [strTruthy] using ht
    rcases hg : aget st.codeIdx c with _ | j
    · rfl
    · obtain ⟨hcne, _⟩ := h.2 c j hg
      exact absurd hc0 hcne

/-- C10: in MemStorage, the share-code index stays sound under every sequence
of createFile, updateFile and deleteFile operations from a fresh instance:
whenever getFileByShareCode returns a file, that file is currently stored and
its shareCode field is exactly the queried code; and immediately after
deleting a stored file, looking up the share code of that file returns nothing. -/
theorem c10_sharecode_index_sound (ops : List MemOp) :
    (∀ (c : String) (f : File), memGetFileByShareCode (memRun ops) c = some f →
      (∃ id, aget (memRun ops).files id = some f) ∧ f.shareCode = some c) ∧
    (∀ (id : Nat) (f : File) (c : String), aget (memRun ops).files id = some f →
      f.shareCode = some c →
      memGetFileByShareCode (memDeleteFile (memRun ops) id).1 c = none) := by
  have hinv := memRun_inv ops
  exact ⟨fun c f hl => memLookup_sound _ hinv c f hl,
    fun id f c hf hc => memDelete_clears_code _ hinv id f c hf hc⟩

/-- Witness for C10: create one file carrying share code AB, look it up, and
delete it. -/
theorem c10_witness :
    (memGetFileByShareCode (memRun [MemOp.create c10Ins]) ("AB") = some c10File ∧
     ((∃ id, aget (memRun [MemOp.create c10Ins]).files id = some c10File) ∧
       c10File.shareCode = some ("AB"))) ∧
    (aget (memRun [MemOp.create c10Ins]).files 0 = some c10File ∧
     memGetFileByShareCode (memDeleteFile (memRun [MemOp.create c10Ins]) 0).1 ("AB")
       = none) := by
  refine ⟨⟨rfl, ?_⟩, ⟨rfl, ?_⟩⟩
  · exact (c10_sharecode_index_sound [MemOp.create c10Ins]).1 ("AB") c10File rfl
  · exact (c10_sharecode_index_sound [MemOp.create c10Ins]).2 0 c10File ("AB") rfl rfl
